import Mathlib

/-!
Verification development for the brainmaze_mefd MEF 3.0 library.

Shallow embedding of the C++ sources (src/src/red.cpp, src/src/mef_writer.cpp,
src/src/mef_reader.cpp and the headers under src/include/brainmaze_mefd/).
Machine integers are modelled as `Nat`/`Int` with explicit `% 2^w` where the
C code wraps or truncates; bytes are `Nat` values below 256; `double`/`float`
quantities that the claims exercise only at exactly representable points are
modelled as exact rationals (noted at each definition); `float` header fields
are carried as their IEEE-754 bit patterns (`Nat`).

C bitwise operations on byte-sized operands are translated to their exact
arithmetic equivalents, noted where they occur:
  `x & 0x3F = x % 64`, `x & 0x0F = x % 16`, `x & 0x07 = x % 8`,
  `x & 0xFF = x % 256`, `(x >> k) = x / 2^k` (non-negative x),
  `a | b = a + b` when the set bit ranges are disjoint.
-/

set_option maxRecDepth 8000

namespace BrainmazeMefd

/-! ## Constants (src/include/brainmaze_mefd/constants.hpp) -/

def PAD_BYTE_VALUE : Nat := 0x7e
def UUTC_NO_ENTRY : Int := -(2 ^ 63)
def CRC_NO_ENTRY : Nat := 0
def RED_BLOCK_HEADER_BYTES : Nat := 304
def RED_NAN : Int := -(2 ^ 31)
def RED_NEGATIVE_INFINITY : Int := -(2 ^ 31) + 1
def RED_POSITIVE_INFINITY : Int := 2 ^ 31 - 1
def RED_MAXIMUM_SAMPLE_VALUE : Int := 2 ^ 31 - 2
def RED_MINIMUM_SAMPLE_VALUE : Int := -(2 ^ 31) + 2
def RED_DISCONTINUITY_MASK : Nat := 0x01
def RED_LEVEL_1_ENCRYPTION_MASK : Nat := 0x02
def RED_LEVEL_2_ENCRYPTION_MASK : Nat := 0x04
def UNIVERSAL_HEADER_BYTES : Nat := 1024
def METADATA_FILE_BYTES : Nat := 16384
def METADATA_SECTION_2_OFFSET : Nat := 2560
def METADATA_SECTION_3_OFFSET : Nat := 13312
def TIME_SERIES_INDEX_BYTES : Nat := 56

/-! ## Two's-complement helpers

`si4`/`si8` values are `Int`s; `toUi32`/`toUi64` give the (little-endian
serialized) unsigned bit pattern, `toSi32`/`toSi64` read it back. `wrap32`
is 32-bit wraparound of an integer expression, matching what the C++ `si4`
arithmetic in `red.cpp` does on the target platforms. -/

def inSi4 (z : Int) : Prop := -(2 ^ 31) ≤ z ∧ z < 2 ^ 31

instance (z : Int) : Decidable (inSi4 z) := by unfold inSi4; infer_instance

def inSi8 (z : Int) : Prop := -(2 ^ 63) ≤ z ∧ z < 2 ^ 63

instance (z : Int) : Decidable (inSi8 z) := by unfold inSi8; infer_instance

def wrap32 (z : Int) : Int := (z + 2 ^ 31) % 2 ^ 32 - 2 ^ 31

def toUi32 (z : Int) : Nat := (z % 2 ^ 32).toNat

def toSi32 (u : Nat) : Int := if u < 2 ^ 31 then (u : Int) else (u : Int) - 2 ^ 32

def toUi64 (z : Int) : Nat := (z % 2 ^ 64).toNat

def toSi64 (u : Nat) : Int := if u < 2 ^ 63 then (u : Int) else (u : Int) - 2 ^ 64

/-! ## Little-endian byte serialization (memcpy of packed structs on a
little-endian host, cf. `#pragma pack(push, 1)` in structures.hpp) -/

def le32 (u : Nat) : List Nat :=
  [u % 256, u / 2 ^ 8 % 256, u / 2 ^ 16 % 256, u / 2 ^ 24 % 256]

def le64 (u : Nat) : List Nat :=
  [u % 256, u / 2 ^ 8 % 256, u / 2 ^ 16 % 256, u / 2 ^ 24 % 256,
   u / 2 ^ 32 % 256, u / 2 ^ 40 % 256, u / 2 ^ 48 % 256, u / 2 ^ 56 % 256]

def byteAt (bs : List Nat) (i : Nat) : Nat := bs.getD i 0

def readLE32 (bs : List Nat) (off : Nat) : Nat :=
  byteAt bs off + byteAt bs (off + 1) * 2 ^ 8 +
  byteAt bs (off + 2) * 2 ^ 16 + byteAt bs (off + 3) * 2 ^ 24

def readLE64 (bs : List Nat) (off : Nat) : Nat :=
  byteAt bs off + byteAt bs (off + 1) * 2 ^ 8 +
  byteAt bs (off + 2) * 2 ^ 16 + byteAt bs (off + 3) * 2 ^ 24 +
  byteAt bs (off + 4) * 2 ^ 32 + byteAt bs (off + 5) * 2 ^ 40 +
  byteAt bs (off + 6) * 2 ^ 48 + byteAt bs (off + 7) * 2 ^ 56

/-! ## RED codec: difference stream (src/src/red.cpp)

`REDCodec::encode_differences` first computes the difference vector
(`d[0] = s[0]`, `d[i] = s[i] - s[i-1]` in `si4` arithmetic), then emits each
difference with the variable-length code. -/

def diffsAux (prev : Int) : List Int → List Int
  | [] => []
  | y :: ys => wrap32 (y - prev) :: diffsAux y ys

def diffsOf : List Int → List Int
  | [] => []
  | x :: xs => x :: diffsAux x xs

/-- One difference symbol of `REDCodec::encode_differences`
(src/src/red.cpp lines 100-134). Bit operations are rendered
arithmetically as described in the file header. -/
def encodeDiff (d : Int) : List Nat :=
  if 0 ≤ d ∧ d ≤ 127 then
    [d.toNat]
  else if -64 ≤ d ∧ d < 0 then
    -- 0x80 | (-diff - 1); the payload is at most 63 so the bit-or is addition
    [128 + (-d - 1).toNat]
  else if -4096 ≤ d ∧ d ≤ 4095 then
    let v : Nat := (if 0 ≤ d then d else -d - 1).toNat
    -- 0xC0 | ((val >> 8) & 0x0F) | (diff < 0 ? 0x10 : 0), then val & 0xFF
    [192 + (if d < 0 then 16 else 0) + v / 2 ^ 8 % 16, v % 256]
  else if -524288 ≤ d ∧ d ≤ 524287 then
    let v : Nat := (if 0 ≤ d then d else -d - 1).toNat
    -- 0xE0 | ((val >> 16) & 0x07) | (diff < 0 ? 0x08 : 0), then middle, low
    [224 + (if d < 0 then 8 else 0) + v / 2 ^ 16 % 8, v / 2 ^ 8 % 256, v % 256]
  else
    -- 0xF0 then the four bytes of the two's-complement value, big-endian
    let u : Nat := toUi32 d
    [240, u / 2 ^ 24 % 256, u / 2 ^ 16 % 256, u / 2 ^ 8 % 256, u % 256]

def encodeDiffList (ds : List Int) : List Nat := (ds.map encodeDiff).flatten

/-- The decoder loop of `REDCodec::decode_differences`
(src/src/red.cpp lines 137-182): structural recursion on the remaining
sample count; `budget` is `diff_bytes - pos`, so the `pos < diff_bytes`
loop guard is `budget ≠ 0` (`Nat` subtraction saturates exactly like the
guard). The byte classification mirrors the C bit tests, valid for byte
values below 256: `(b & 0x80) == 0` is `b < 128`, `(b & 0xC0) == 0x80` is
`128 ≤ b < 192`, `(b & 0xE0) == 0xC0` is `192 ≤ b < 224`,
`(b & 0xF0) == 0xE0` is `224 ≤ b < 240`. Reads past the end of the list
(out-of-bounds reads in C on malformed input) give 0. -/
def classifyDiff (input : List Nat) : Int × Nat :=
  let b := byteAt input 0
  if b < 128 then ((b : Int), 1)
  else if b < 192 then (-((b % 64 : Nat) : Int) - 1, 1)
  else if b < 224 then
    let v : Nat := b % 16 * 2 ^ 8 + byteAt input 1
    ((if b / 16 % 2 = 1 then -(v : Int) - 1 else (v : Int)), 2)
  else if b < 240 then
    let v : Nat := b % 8 * 2 ^ 16 + byteAt input 1 * 2 ^ 8 + byteAt input 2
    ((if b / 8 % 2 = 1 then -(v : Int) - 1 else (v : Int)), 3)
  else
    let u : Nat := byteAt input 1 * 2 ^ 24 + byteAt input 2 * 2 ^ 16 +
                   byteAt input 3 * 2 ^ 8 + byteAt input 4
    (toSi32 u, 5)

def decodeLoop (input : List Nat) (budget : Nat) : Nat → Int → Bool → List Int
  | 0, _, _ => []
  | Nat.succ m, prev, first =>
    if budget = 0 then []
    else
      let p := classifyDiff input
      let s : Int := if first then p.1 else wrap32 (prev + p.1)
      s :: decodeLoop (input.drop p.2) (budget - p.2) m s false

/-- Expected result of the decode loop on an encoded difference list:
the running prefix sum in 32-bit arithmetic (`output[i] = prev + diff`). -/
def resumDiffs (prev : Int) (first : Bool) : List Int → List Int
  | [] => []
  | d :: ds =>
    let s : Int := if first then d else wrap32 (prev + d)
    s :: resumDiffs s false ds

/-! ## CRC-32 (src/include/brainmaze_mefd/crc.hpp)

Modelled from the spec: the implementation file of `CRC32::calculate` /
`CRC32::update` is not under src/ (only the class declaration in crc.hpp
is). Spec §4.1: "table-driven CRC-32 over polynomial 0xEB31D82E, initial
register 0xFFFFFFFF, final XOR 0, reflected input, LSB-first";
`calculate(empty) = 0xFFFFFFFF` and `update(b, update(a, START)) =
calculate(a ++ b)`. The standard reflected table-driven form is
`crc = table[(crc ^ byte) & 0xFF] ^ (crc >> 8)` with
`table[i] = fold 8 times (c odd ? (c >> 1) ^ POLY : c >> 1) from i`;
the table entry is computed inline here instead of being cached. -/

namespace CRC32

def KOOPMAN32 : Nat := 0xEB31D82E

def CRC_START_VALUE : Nat := 0xFFFFFFFF

def crcStep (c : Nat) : Nat := if c % 2 = 1 then c / 2 ^^^ KOOPMAN32 else c / 2

def tableEntry (i : Nat) : Nat :=
  crcStep (crcStep (crcStep (crcStep (crcStep (crcStep (crcStep (crcStep i)))))))

def updateByte (crc b : Nat) : Nat :=
  tableEntry ((crc ^^^ b) % 256) ^^^ crc / 256

def update (bytes : List Nat) (crc : Nat) : Nat := bytes.foldl updateByte crc

def calculate (bytes : List Nat) : Nat := update bytes CRC_START_VALUE

end CRC32

/-! ## RED codec structures (src/include/brainmaze_mefd/red.hpp and
structures.hpp). Field defaults follow the C++ `clear()` methods; the
`sf4` fields are IEEE-754 bit patterns (`0x3F800000` is `1.0f`). -/

structure CompressionParams where
  mode : Nat := 1
  encryption_level : Int := 0
  discontinuity : Bool := true
  detrend_data : Bool := false
  goal_compression_ratio : Rat := 1 / 20
  goal_mean_residual_ratio : Rat := 1 / 20
  goal_tolerance : Rat := 1 / 200
  max_rounds : Int := 20
  require_normality : Bool := true
  normal_correlation : Rat := 1 / 2
  deriving Repr, DecidableEq

structure REDBlockHeader where
  block_CRC : Nat := CRC_NO_ENTRY
  flags : Nat := 0
  detrend_slope : Nat := 0
  detrend_intercept : Nat := 0
  scale_factor : Nat := 0x3F800000
  difference_bytes : Nat := 0
  number_of_samples : Nat := 0
  block_bytes : Nat := 0
  start_time : Int := UUTC_NO_ENTRY
  statistics : List Nat := List.replicate 256 0
  deriving Repr, DecidableEq

structure TimeSeriesIndex where
  file_offset : Int := -1
  start_time : Int := UUTC_NO_ENTRY
  start_sample : Int := -1
  number_of_samples : Nat := 0xFFFFFFFF
  block_bytes : Nat := 0xFFFFFFFF
  maximum_sample_value : Int := RED_NAN
  minimum_sample_value : Int := RED_NAN
  RED_block_flags : Nat := 0
  deriving Repr, DecidableEq

structure PasswordData where
  level_1_encryption_key : List Nat := List.replicate 176 0
  level_2_encryption_key : List Nat := List.replicate 176 0
  access_level : Nat := 0
  deriving Repr, DecidableEq

structure CompressionResult where
  compressed_data : List Nat := []
  block_header : REDBlockHeader := {}
  index : TimeSeriesIndex := {}
  success : Bool := false
  deriving Repr, DecidableEq

structure DecompressionResult where
  samples : List Int := []
  block_header : REDBlockHeader := {}
  success : Bool := false
  deriving Repr, DecidableEq

/-- Byte image of the packed `REDBlockHeader` struct after the 4 leading
`block_CRC` bytes: flags, 3-byte protected region and 8-byte discretionary
region (pad-filled by `clear()`, untouched by `compress`), the three `sf4`
bit patterns, the three `ui4` counters, the `si8` start time, and the
256-byte statistics array. -/
def redHeaderTail (h : REDBlockHeader) : List Nat :=
  [h.flags] ++ List.replicate 3 PAD_BYTE_VALUE ++ List.replicate 8 PAD_BYTE_VALUE ++
  le32 h.detrend_slope ++ le32 h.detrend_intercept ++ le32 h.scale_factor ++
  le32 h.difference_bytes ++ le32 h.number_of_samples ++ le32 h.block_bytes ++
  le64 (toUi64 h.start_time) ++ h.statistics

def serializeREDHeader (h : REDBlockHeader) : List Nat :=
  le32 h.block_CRC ++ redHeaderTail h

/-- Header parse by `memcpy` from the block bytes
(src/src/red.cpp line 269), at the packed field offsets of
constants.hpp (`RED_BLOCK_FLAGS_OFFSET = 4`, ..., statistics at 48). -/
def parseREDHeader (bs : List Nat) : REDBlockHeader where
  block_CRC := readLE32 bs 0
  flags := byteAt bs 4
  detrend_slope := readLE32 bs 16
  detrend_intercept := readLE32 bs 20
  scale_factor := readLE32 bs 24
  difference_bytes := readLE32 bs 28
  number_of_samples := readLE32 bs 32
  block_bytes := readLE32 bs 36
  start_time := toSi64 (readLE64 bs 40)
  statistics := (bs.drop 48).take 256

namespace REDCodec

/-- `REDCodec::find_extrema` (src/src/red.cpp lines 36-53): fold over the
samples skipping only `RED_NAN`, starting from
(`RED_MAXIMUM_SAMPLE_VALUE`, `RED_MINIMUM_SAMPLE_VALUE`). -/
def extremaStep (mm : Int × Int) (v : Int) : Int × Int :=
  if v = RED_NAN then mm
  else (if v < mm.1 then v else mm.1, if mm.2 < v then v else mm.2)

def find_extrema (samples : List Int) : Int × Int :=
  if samples.length = 0 then (RED_NAN, RED_NAN)
  else samples.foldl extremaStep (RED_MAXIMUM_SAMPLE_VALUE, RED_MINIMUM_SAMPLE_VALUE)

/-- `REDCodec::compute_statistics` (src/src/red.cpp lines 55-76).
The C symbol `(diff + 128) & 0xFF` on a (wrapping) `si4` equals
`(d + 128) % 256` with the mathematician's (non-negative) `Int.emod`,
because `256` divides `2^32`. `stats` stays zero-initialized when
`max_count = 0`. -/
def compute_statistics (diffs : List Int) : List Nat :=
  let counts := (List.range 256).map
    (fun (s : Nat) => diffs.countP (fun d => decide ((d + 128) % 256 = (s : Int))))
  let maxCount := counts.foldl max 0
  if maxCount = 0 then List.replicate 256 0
  else counts.map (fun c => let v := c * 255 / maxCount
                            if 0 < c ∧ v = 0 then 1 else v)

/-- Encoded difference stream of a sample vector: the `diff_encoded`
buffer of `REDCodec::compress`. -/
def encOf (v : List Int) : List Nat := encodeDiffList (diffsOf v)

/-- Number of 0x7E bytes the `while (size % 8 != 0)` loop of
`REDCodec::compress` appends after the header (304 bytes, itself a
multiple of 8) plus the difference stream. -/
def padLenOf (v : List Int) : Nat :=
  (8 - (RED_BLOCK_HEADER_BYTES + (encOf v).length) % 8) % 8

/-- The block header as filled by `REDCodec::compress` before the CRC is
patched in (src/src/red.cpp lines 215-230): `block_CRC` still
`CRC_NO_ENTRY`, `scale_factor = 1.0f`, sizes cast to `ui4`. No encryption
flag is ever set, whatever `params.encryption_level` says (the code only
consults `params.discontinuity`). -/
def headerOf (v : List Int) (start_time : Int) (params : CompressionParams)
    (crc : Nat) : REDBlockHeader where
  block_CRC := crc
  flags := if params.discontinuity then RED_DISCONTINUITY_MASK else 0
  detrend_slope := 0
  detrend_intercept := 0
  scale_factor := 0x3F800000
  difference_bytes := (encOf v).length % 2 ^ 32
  number_of_samples := v.length
  block_bytes := (RED_BLOCK_HEADER_BYTES + (encOf v).length + padLenOf v) % 2 ^ 32
  start_time := start_time
  statistics := compute_statistics (diffsOf v)

/-- Bytes `[4..block_bytes)` of the assembled block: header tail (after
the CRC field), encoded differences, 0x7E pad. This is what the block
CRC is computed over. -/
def bodyOf (v : List Int) (start_time : Int) (params : CompressionParams) : List Nat :=
  redHeaderTail (headerOf v start_time params CRC_NO_ENTRY) ++
    (encOf v ++ List.replicate (padLenOf v) PAD_BYTE_VALUE)

/-- `REDCodec::compress` (src/src/red.cpp lines 184-257). The input is
`none` for a null `samples` pointer. The header is memcpy-ed with
`block_CRC = CRC_NO_ENTRY`, the CRC is computed over bytes
`[4..block_bytes)` and patched both into the output and the result
header. No AES encryption is performed (step 6 of the spec pipeline is
absent from the code). -/
def compress : Option (List Int) → Int → CompressionParams → CompressionResult
  | none, _, _ => {}
  | some v, start_time, params =>
    if v.length = 0 then {}
    else
      { compressed_data := le32 (CRC32.calculate (bodyOf v start_time params)) ++
          bodyOf v start_time params
        block_header := headerOf v start_time params
          (CRC32.calculate (bodyOf v start_time params))
        index :=
          { file_offset := 0
            start_time := start_time
            start_sample := 0
            number_of_samples := v.length
            block_bytes := (RED_BLOCK_HEADER_BYTES + (encOf v).length + padLenOf v) % 2 ^ 32
            maximum_sample_value := (find_extrema v).2
            minimum_sample_value := (find_extrema v).1
            RED_block_flags := if params.discontinuity then RED_DISCONTINUITY_MASK else 0 }
        success := true }

/-- Value of an `sf4` bit pattern as an exact rational (sign, biased
exponent, mantissa). Used only by the lossy-scale branch of `decompress`,
which no block written by this library reaches (`compress` always stores
`1.0f`). Exponent 255 (infinities, NaNs) is modelled by the same
formula; the C behaviour there is undefined anyway. -/
def f32Val (bits : Nat) : Rat :=
  let s : Rat := if bits / 2 ^ 31 = 1 then -1 else 1
  let e : Nat := bits / 2 ^ 23 % 256
  let m : Nat := bits % 2 ^ 23
  if e = 0 then s * m * (2 ^ 149 : Rat)⁻¹
  else s * (2 ^ 23 + m) * ((2 : Rat) ^ (e : Int) / 2 ^ 150)

/-- `std::round`: round half away from zero. -/
def roundHalfAway (q : Rat) : Int := if 0 ≤ q then ⌊q + 1 / 2⌋ else ⌈q - 1 / 2⌉

/-- The `scale_factor` branch of `REDCodec::decompress`
(src/src/red.cpp lines 300-304), modelled with exact rational arithmetic
in place of `double` rounding; dead for every block this library writes. -/
def scaleSample (scaleBits : Nat) (s : Int) : Int :=
  roundHalfAway ((s : Rat) * f32Val scaleBits)

/-- Sample reconstruction of `REDCodec::decompress` given the parsed
header and the payload after the 304 header bytes:
`std::vector::resize` zero-fills whatever the decode loop does not
reach, and the lossy-scale branch runs only when the `scale_factor` bit
pattern compares float-unequal to both 1.0f and 0.0f (`0x80000000`,
-0.0f, compares equal to 0.0f). -/
def decompressedSamples (h : REDBlockHeader) (payload : List Nat) : List Int :=
  let decoded := decodeLoop payload h.difference_bytes h.number_of_samples 0 true
  let raw := decoded ++ List.replicate (h.number_of_samples - decoded.length) 0
  if h.scale_factor ≠ 0x3F800000 ∧ h.scale_factor ≠ 0 ∧ h.scale_factor ≠ 0x80000000 then
    raw.map (scaleSample h.scale_factor)
  else raw

/-- `REDCodec::decompress` (buffer overload, src/src/red.cpp lines
259-308). `none` models a null data pointer. No CRC check and no
decryption happen; the password argument is ignored (the `TODO` at
src/src/red.cpp line 288). -/
def decompress : Option (List Nat) → Option PasswordData → DecompressionResult
  | none, _ => {}
  | some bs, _password_data =>
    if bs.length < RED_BLOCK_HEADER_BYTES then {}
    else
      let h := parseREDHeader bs
      if h.number_of_samples = 0 then { block_header := h, success := true }
      else
        { samples := decompressedSamples h (bs.drop RED_BLOCK_HEADER_BYTES)
          block_header := h
          success := true }

end REDCodec

/-! ## write_data quantization (src/src/mef_writer.cpp, lines 205-259) and
the value-conversion loop of get_data (src/src/mef_reader.cpp, lines
377-391); the time-to-sample windowing of get_data (lines 358-375) is
modelled further below, after the writer state.

A double is modelled as an exact rational; NaN is modelled as `none`.
`std::round` rounds half away from zero (`REDCodec.roundHalfAway`); `std::clamp`
is `max lo (min x hi)`. -/

/-- One sample of `MefWriter::write_data` with explicit precision `p >= 0`:
NaN maps to `RED_NAN`; a finite value is scaled by `10^p`, clamped to
`[RED_MINIMUM_SAMPLE_VALUE, RED_MAXIMUM_SAMPLE_VALUE]` and rounded. -/
def quantizeSample (p : Nat) (x : Option Rat) : Int :=
  match x with
  | none => RED_NAN
  | some q =>
    REDCodec.roundHalfAway (max ((RED_MINIMUM_SAMPLE_VALUE : Int) : Rat)
      (min (q * 10 ^ p) ((RED_MAXIMUM_SAMPLE_VALUE : Int) : Rat)))

/-- The units conversion factor stored by `write_data`: it is updated to
`1 / scale_factor` only when `scale_factor != 1.0`; a fresh writer holds
the default `1.0` (mef_writer.hpp). -/
def writeConversionFactor (p : Nat) : Rat :=
  if (10 : Rat) ^ p ≠ 1 then 1 / 10 ^ p else 1

/-- The value-conversion loop of `MefReader::get_data` (lines 377-391):
`RED_NAN` maps to NaN, any other raw value is multiplied by the units
conversion factor, with `0.0` replaced by `1.0`. -/
def convertSample (conversion : Rat) (s : Int) : Option Rat :=
  if s = RED_NAN then none
  else some ((s : Rat) * (if conversion = 0 then 1 else conversion))

/-- The conversion a reader applies to a channel written by `write_data`
with precision `p` (its stored units conversion factor). -/
def dequantizeSample (p : Nat) (s : Int) : Option Rat :=
  convertSample (writeConversionFactor p) s

/-- The sample vector `write_data` hands to `write_raw_data`. -/
def writeData (p : Nat) (xs : List (Option Rat)) : List Int :=
  xs.map (quantizeSample p)

/-! ## Writer channel state and write_raw_data
(src/src/mef_writer.cpp lines 144-193, 261-360; state fields from the
ChannelState struct in mef_writer.hpp).

File-system effects are modelled by the state fields alone: the data file
is tracked by its running byte offset, and `finalize_segment` (which
writes the metadata and index files of the current segment) is modelled
by appending the segment's index list to `finalized`. Doubles are exact
rationals; a C cast of a double to `si8` truncates toward zero
(`intTrunc`). `m_block_len` is passed explicitly; all claims use positive
block lengths (the member default is 1000). -/

/-- Truncation toward zero: `static_cast<si8>` applied to a double. -/
def intTrunc (q : Rat) : Int := if 0 ≤ q then ⌊q⌋ else ⌈q⌉

structure WriterChannelState where
  current_segment : Int := -1
  last_sample_index : Int := 0
  last_end_time : Int := UUTC_NO_ENTRY
  sampling_frequency : Rat := 0
  indices : List TimeSeriesIndex := []
  total_samples : Int := 0
  total_blocks : Int := 0
  data_file_offset : Int := 0
  finalized : List (List TimeSeriesIndex) := []
  deriving Repr, DecidableEq

/-- `MefWriter::create_segment`: bump the segment number, write the
universal-header placeholder (1024 bytes, so the data offset restarts at
`UNIVERSAL_HEADER_BYTES`), clear the per-segment index list, and set
`last_sample_index = total_samples` (the channel-cumulative count). -/
def create_segment (st : WriterChannelState) : WriterChannelState :=
  { st with
    current_segment := st.current_segment + 1
    data_file_offset := (UNIVERSAL_HEADER_BYTES : Int)
    indices := []
    last_sample_index := st.total_samples }

/-- `MefWriter::finalize_segment`: closes the data file and writes the
metadata and index files of the segment; modelled by recording the
segment's indices. -/
def finalize_segment (st : WriterChannelState) : WriterChannelState :=
  { st with finalized := st.finalized ++ [st.indices] }

/-- `MefWriter::write_block`: compress the chunk, file the index entry
with the running file offset and `start_sample = last_sample_index`,
append the compressed bytes, and advance the counters. -/
def write_block (st : WriterChannelState) (chunk : List Int) (start_time : Int)
    (is_discontinuity : Bool) : WriterChannelState :=
  let result := REDCodec.compress (some chunk) start_time
    { discontinuity := is_discontinuity }
  { st with
    indices := st.indices ++
      [{ result.index with
          file_offset := st.data_file_offset
          start_sample := st.last_sample_index }]
    data_file_offset := st.data_file_offset + result.compressed_data.length
    last_sample_index := st.last_sample_index + chunk.length
    total_blocks := st.total_blocks + 1 }

/-- The new-segment decision of `write_raw_data`: forced by the
`new_segment` flag or a missing segment; otherwise, when `last_end_time`
is set, a gap beyond two block lengths of samples opens a new segment.
Both the expected start increment `1e6/fs` and the threshold
`2.0 * block_len * 1e6 / fs` are truncated to `si8`. -/
def needNewSegment (block_len : Int) (st : WriterChannelState) (start_uutc : Int)
    (sampling_freq : Rat) (new_segment : Bool) : Bool :=
  if new_segment || decide (st.current_segment < 0) then true
  else if st.last_end_time = UUTC_NO_ENTRY then false
  else
    decide (|start_uutc - (st.last_end_time + intTrunc (10 ^ 6 / sampling_freq))| >
      intTrunc (2 * block_len * 10 ^ 6 / sampling_freq))

/-- The blocking loop of `write_raw_data` cut at `block_len` samples
per block (fuel is the input length; each iteration consumes at least
one sample when `block_len > 0`, exactly as the C++ loop). -/
def chunksOfAux (bl : Nat) : Nat → List Int → List (List Int)
  | 0, _ => []
  | _, [] => []
  | fuel + 1, x :: rest =>
    (x :: rest).take bl :: chunksOfAux bl fuel ((x :: rest).drop bl)

def chunksOf (bl : Nat) (xs : List Int) : List (List Int) :=
  chunksOfAux bl xs.length xs

def writeBlocksLoop (start_uutc : Int) (fs : Rat) (need : Bool) :
    List (List Int) → WriterChannelState → Nat → Bool → WriterChannelState
  | [], st, _, _ => st
  | c :: rest, st, written, first =>
    writeBlocksLoop start_uutc fs need rest
      (write_block st c (start_uutc + intTrunc ((written : Rat) * 10 ^ 6 / fs))
        (first && need))
      (written + c.length) false

/-- The segment bookkeeping at the head of `write_raw_data`: when a new
segment is needed, any existing segment is finalized first. -/
def segmentedState (block_len : Int) (st : WriterChannelState) (start_uutc : Int)
    (sampling_freq : Rat) (new_segment : Bool) : WriterChannelState :=
  if needNewSegment block_len st start_uutc sampling_freq new_segment then
    create_segment (if 0 ≤ st.current_segment then finalize_segment st else st)
  else st

/-- The channel state after the blocking loop and the final counter
updates of `write_raw_data`. -/
def postWriteState (block_len : Int) (st : WriterChannelState) (data : List Int)
    (start_uutc : Int) (sampling_freq : Rat) (new_segment : Bool) :
    WriterChannelState :=
  { writeBlocksLoop start_uutc sampling_freq
      (needNewSegment block_len st start_uutc sampling_freq new_segment)
      (chunksOf block_len.toNat data)
      (segmentedState block_len st start_uutc sampling_freq new_segment) 0 true with
    last_end_time := start_uutc +
      intTrunc (((data.length - 1 : Nat) : Rat) * 10 ^ 6 / sampling_freq)
    total_samples := (writeBlocksLoop start_uutc sampling_freq
      (needNewSegment block_len st start_uutc sampling_freq new_segment)
      (chunksOf block_len.toNat data)
      (segmentedState block_len st start_uutc sampling_freq new_segment) 0
      true).total_samples + data.length }

/-- `MefWriter::write_raw_data` on an existing channel: empty input
returns immediately; `ensure_channel` throws (`none`) on a sampling
frequency mismatch; otherwise the segment decision, the blocking loop,
and the `last_end_time` / `total_samples` updates run in order. -/
def write_raw_data (block_len : Int) (st : WriterChannelState) (data : List Int)
    (start_uutc : Int) (sampling_freq : Rat) (new_segment : Bool) :
    Option WriterChannelState :=
  if data = [] then some st
  else if ¬(st.sampling_frequency = 0 ∨ st.sampling_frequency = sampling_freq) then
    none
  else some (postWriteState block_len st data start_uutc sampling_freq new_segment)

/-- The spec's wording of the segment decision (second model for the C7
comparison): `expected_next_time = last_end_time + round(1e6/fs)` with a
real-valued threshold `2 * block_len * 1e6 / fs`. -/
def specNewSegmentCondition (block_len : Int) (st : WriterChannelState)
    (start_uutc : Int) (sampling_freq : Rat) (new_segment : Bool) : Prop :=
  new_segment = true ∨ st.current_segment < 0 ∨
    ((|start_uutc - (st.last_end_time +
        REDCodec.roundHalfAway (10 ^ 6 / sampling_freq))| : Int) : Rat) >
      2 * block_len * 10 ^ 6 / sampling_freq

/-- Sum of the `number_of_samples` fields of a list of index entries. -/
def sumSamples (l : List TimeSeriesIndex) : Int :=
  (l.map (fun e => (e.number_of_samples : Int))).sum

/-- Each entry's `start_sample` continues the running sample count
anchored at `base`: entry N starts at `base` plus the sample counts of
entries `0..N-1`. -/
def indicesCumOk (base : Int) : List TimeSeriesIndex → Prop
  | [] => True
  | e :: rest => e.start_sample = base ∧
      indicesCumOk (base + (e.number_of_samples : Int)) rest

/-! ## MefReader::get_data windowing (src/src/mef_reader.cpp, lines
349-391; channel fields from the ChannelInfo struct in mef_reader.hpp).

`get_data` converts its time range to a sample range with C casts
(truncation), clamps it to `[0, number_of_samples]`, extracts those raw
samples, and runs the value conversion. `get_raw_data` /
`decompress_blocks` (lines 393-491) walk the stored segments and blocks
and push exactly the decoded samples with indices in
`[start_sample, end_sample)`; with the per-block round trip established
for the RED codec, that extraction is the slice of the channel's raw
sample stream, which is how it is modelled here. -/

structure ReaderChannelInfo where
  sampling_frequency : Rat := 0
  number_of_samples : Int := 0
  start_time : Int := UUTC_NO_ENTRY
  end_time : Int := UUTC_NO_ENTRY
  units_conversion_factor : Rat := 1
  deriving Repr, DecidableEq

/-- `start_sample = max(0, (si8)((t_start - start_time) * fs / 1e6))`. -/
def startSampleOf (info : ReaderChannelInfo) (t_start : Int) : Int :=
  max 0 (intTrunc (((t_start - info.start_time : Int) : Rat) *
    info.sampling_frequency / 10 ^ 6))

/-- `end_sample = min((si8)((t_end - start_time) * fs / 1e6), n)`. -/
def endSampleOf (info : ReaderChannelInfo) (t_end : Int) : Int :=
  min (intTrunc (((t_end - info.start_time : Int) : Rat) *
    info.sampling_frequency / 10 ^ 6)) info.number_of_samples

/-- The raw samples with indices in `[start_sample, end_sample)` of the
channel's sample stream. -/
def get_raw_data (raw : List Int) (start_sample end_sample : Int) : List Int :=
  (raw.take end_sample.toNat).drop start_sample.toNat

/-- `MefReader::get_data`: throws (`none`) on a non-positive sampling
frequency; otherwise windows the raw stream by the requested time range
(null pointers default to the channel bounds) and converts each sample. -/
def get_data (info : ReaderChannelInfo) (raw : List Int)
    (start_time end_time : Option Int) : Option (List (Option Rat)) :=
  if info.sampling_frequency ≤ 0 then none
  else some ((get_raw_data raw
      (startSampleOf info (start_time.getD info.start_time))
      (endSampleOf info (end_time.getD info.end_time))).map
    (convertSample info.units_conversion_factor))

/-- A one-sample channel at 1 MHz as the writer leaves it:
`end_time = start_time + trunc((1-1)*1e6/fs) = start_time`. -/
def c2ReadInfo : ReaderChannelInfo :=
  { sampling_frequency := 10 ^ 6, number_of_samples := 1, start_time := 0,
    end_time := 0, units_conversion_factor := 1 }

/-- A two-sample channel at 1 MHz as the writer leaves it:
`end_time = start_time + trunc((2-1)*1e6/fs) = start_time + 1`. -/
def c2ClampInfo : ReaderChannelInfo :=
  { sampling_frequency := 10 ^ 6, number_of_samples := 2, start_time := 0,
    end_time := 1, units_conversion_factor := 1 }

/-! ## Universal header and segment file images
(src/include/brainmaze_mefd/structures.hpp; src/src/mef_writer.cpp:
create_segment lines 144-193, write_metadata lines 375-489, write_indices
lines 492-546).

Byte images of the packed structs on a little-endian machine. Strings are
byte lists; `strncpy` into a zero-filled fixed-size array keeps at most
`size - 1` bytes. -/

/-- `strncpy` of a name into a zero-filled 256-byte field. -/
def name256 (s : List Nat) : List Nat :=
  s.take 255 ++ List.replicate (256 - (s.take 255).length) 0

/-- `set_file_type`: `strncpy` into a zero-filled 5-byte type field. -/
def fileTypeBytes (s : List Nat) : List Nat :=
  s.take 4 ++ List.replicate (5 - (s.take 4).length) 0

def tdatType : List Nat := [116, 100, 97, 116]
def tmetType : List Nat := [116, 109, 101, 116]
def tidxType : List Nat := [116, 105, 100, 120]

/-- The 1024-byte `UniversalHeader` struct; field defaults follow its
`clear()` method (`byte_order_code` is 1, little-endian). -/
structure UniversalHeader where
  header_CRC : Nat := CRC_NO_ENTRY
  body_CRC : Nat := CRC_NO_ENTRY
  file_type_string : List Nat := List.replicate 5 0
  mef_version_major : Nat := 3
  mef_version_minor : Nat := 0
  byte_order_code : Nat := 1
  start_time : Int := UUTC_NO_ENTRY
  end_time : Int := UUTC_NO_ENTRY
  number_of_entries : Int := -1
  maximum_entry_size : Int := -1
  segment_number : Int := -1
  channel_name : List Nat := List.replicate 256 0
  session_name : List Nat := List.replicate 256 0
  anonymized_name : List Nat := List.replicate 256 0
  level_UUID : List Nat := List.replicate 16 0
  file_UUID : List Nat := List.replicate 16 0
  provenance_UUID : List Nat := List.replicate 16 0
  level_1_password_validation_field : List Nat := List.replicate 16 0
  level_2_password_validation_field : List Nat := List.replicate 16 0
  protected_region : List Nat := List.replicate 60 PAD_BYTE_VALUE
  discretionary_region : List Nat := List.replicate 64 PAD_BYTE_VALUE
  deriving Repr, DecidableEq

/-- Bytes [4..1024) of the universal header: everything after the
`header_CRC` field, in struct order. -/
def uhTail (uh : UniversalHeader) : List Nat :=
  le32 uh.body_CRC ++ uh.file_type_string ++
  [uh.mef_version_major, uh.mef_version_minor, uh.byte_order_code] ++
  le64 (toUi64 uh.start_time) ++ le64 (toUi64 uh.end_time) ++
  le64 (toUi64 uh.number_of_entries) ++ le64 (toUi64 uh.maximum_entry_size) ++
  le32 (toUi32 uh.segment_number) ++
  uh.channel_name ++ uh.session_name ++ uh.anonymized_name ++
  uh.level_UUID ++ uh.file_UUID ++ uh.provenance_UUID ++
  uh.level_1_password_validation_field ++ uh.level_2_password_validation_field ++
  uh.protected_region ++ uh.discretionary_region

def uhBytes (uh : UniversalHeader) : List Nat := le32 uh.header_CRC ++ uhTail uh

/-- The `.tdat` universal header before its CRC is filled in
(`create_segment`). -/
def tdatUHBase (ch ses : List Nat) (seg : Int) (uuid : List Nat) : UniversalHeader :=
  { file_type_string := fileTypeBytes tdatType
    channel_name := name256 ch
    session_name := name256 ses
    segment_number := seg
    level_UUID := uuid }

/-- The `.tdat` universal header as written: `header_CRC` is computed
over bytes [4..1024) of the header (`uhTail`). -/
def tdatUH (ch ses : List Nat) (seg : Int) (uuid : List Nat) : UniversalHeader :=
  { tdatUHBase ch ses seg uuid with
    header_CRC := CRC32.calculate (uhTail (tdatUHBase ch ses seg uuid)) }

/-- The `.tmet` universal header (`write_metadata`): start/end times from
the segment indices, `number_of_entries = 1`; neither CRC field is ever
computed, both stay `CRC_NO_ENTRY`. -/
def tmetUH (ch ses : List Nat) (seg : Int) (uuid : List Nat)
    (start_time end_time : Int) : UniversalHeader :=
  { file_type_string := fileTypeBytes tmetType
    channel_name := name256 ch
    session_name := name256 ses
    segment_number := seg
    start_time := start_time
    end_time := end_time
    number_of_entries := 1
    level_UUID := uuid }

/-- Byte image of one packed 56-byte `TimeSeriesIndex` record; the
protected and discretionary regions are pad-filled by `clear()`. -/
def serializeIndex (e : TimeSeriesIndex) : List Nat :=
  le64 (toUi64 e.file_offset) ++ le64 (toUi64 e.start_time) ++
  le64 (toUi64 e.start_sample) ++ le32 (e.number_of_samples % 2 ^ 32) ++
  le32 (e.block_bytes % 2 ^ 32) ++ le32 (toUi32 e.maximum_sample_value) ++
  le32 (toUi32 e.minimum_sample_value) ++ List.replicate 4 PAD_BYTE_VALUE ++
  [e.RED_block_flags % 256] ++ List.replicate 3 PAD_BYTE_VALUE ++
  List.replicate 8 PAD_BYTE_VALUE

/-- The `.tidx` universal header (`write_indices`): `body_CRC` is the CRC
of the serialized index records; `header_CRC` is never computed. -/
def tidxUH (ch ses : List Nat) (seg : Int) (uuid : List Nat)
    (start_time end_time : Int) (n_entries max_entry : Int)
    (indices : List TimeSeriesIndex) : UniversalHeader :=
  { file_type_string := fileTypeBytes tidxType
    channel_name := name256 ch
    session_name := name256 ses
    segment_number := seg
    start_time := start_time
    end_time := end_time
    number_of_entries := n_entries
    maximum_entry_size := max_entry
    level_UUID := uuid
    body_CRC := CRC32.calculate ((indices.map serializeIndex).flatten) }

/-- The `.tidx` file: universal header followed by the index records. -/
def tidxFileBytes (ch ses : List Nat) (seg : Int) (uuid : List Nat)
    (start_time end_time : Int) (n_entries max_entry : Int)
    (indices : List TimeSeriesIndex) : List Nat :=
  uhBytes (tidxUH ch ses seg uuid start_time end_time n_entries max_entry indices) ++
  (indices.map serializeIndex).flatten

/-- The `.tmet` file: universal header, 0x7E padding up to the section-2
offset at 2560 (a `MetadataSection1` is constructed in `write_metadata`
but never written), section 2 (10752 bytes, ending exactly at the
section-3 offset 13312), section 3, and 0x7E padding up to 16384 bytes.
The section-2 and section-3 byte images are parameters: no claim checked
here depends on their contents, only on their sizes. -/
def tmetFileBytes (uh : UniversalHeader) (meta2 meta3 : List Nat) : List Nat :=
  uhBytes uh ++
  List.replicate (METADATA_SECTION_2_OFFSET - UNIVERSAL_HEADER_BYTES) PAD_BYTE_VALUE ++
  meta2 ++ meta3 ++
  List.replicate (METADATA_FILE_BYTES - (METADATA_SECTION_3_OFFSET + meta3.length))
    PAD_BYTE_VALUE

/-! ## Round-trip lemmas for the difference stream -/

theorem wrap32_inSi4 (z : Int) : inSi4 (wrap32 z) := by
  unfold inSi4 wrap32; omega

theorem wrap32_eq_self {z : Int} (h : inSi4 z) : wrap32 z = z := by
  unfold inSi4 at h; unfold wrap32; omega

theorem wrap32_add_wrap32 (a b : Int) : wrap32 (a + wrap32 b) = wrap32 (a + b) := by
  unfold wrap32; omega

theorem encodeDiff_length_pos (d : Int) : 0 < (encodeDiff d).length := by
  unfold encodeDiff; split_ifs <;> simp

theorem encodeDiff_length_le (d : Int) : (encodeDiff d).length ≤ 5 := by
  unfold encodeDiff; split_ifs <;> simp

theorem classifyDiff_case1 (b : Nat) (rest : List Nat) (h : b < 128) :
    classifyDiff (b :: rest) = ((b : Int), 1) := by
  simp only [classifyDiff, byteAt, List.getD_cons_zero]
  rw [if_pos h]

theorem classifyDiff_case2 (b : Nat) (rest : List Nat) (h1 : 128 ≤ b) (h2 : b < 192) :
    classifyDiff (b :: rest) = (-((b % 64 : Nat) : Int) - 1, 1) := by
  simp only [classifyDiff, byteAt, List.getD_cons_zero]
  rw [if_neg (by omega), if_pos h2]

theorem classifyDiff_case3 (b c : Nat) (rest : List Nat) (h1 : 192 ≤ b) (h2 : b < 224) :
    classifyDiff (b :: c :: rest) =
      ((if b / 16 % 2 = 1 then -((b % 16 * 2 ^ 8 + c : Nat) : Int) - 1
        else ((b % 16 * 2 ^ 8 + c : Nat) : Int)), 2) := by
  simp only [classifyDiff, byteAt, List.getD_cons_zero, List.getD_cons_succ]
  rw [if_neg (by omega), if_neg (by omega), if_pos h2]

theorem classifyDiff_case4 (b c e : Nat) (rest : List Nat) (h1 : 224 ≤ b) (h2 : b < 240) :
    classifyDiff (b :: c :: e :: rest) =
      ((if b / 8 % 2 = 1 then -((b % 8 * 2 ^ 16 + c * 2 ^ 8 + e : Nat) : Int) - 1
        else ((b % 8 * 2 ^ 16 + c * 2 ^ 8 + e : Nat) : Int)), 3) := by
  simp only [classifyDiff, byteAt, List.getD_cons_zero, List.getD_cons_succ]
  rw [if_neg (by omega), if_neg (by omega), if_neg (by omega), if_pos h2]

theorem classifyDiff_case5 (b c e f g : Nat) (rest : List Nat) (h1 : 240 ≤ b) :
    classifyDiff (b :: c :: e :: f :: g :: rest) =
      (toSi32 (c * 2 ^ 24 + e * 2 ^ 16 + f * 2 ^ 8 + g), 5) := by
  simp only [classifyDiff, byteAt, List.getD_cons_zero, List.getD_cons_succ]
  rw [if_neg (by omega), if_neg (by omega), if_neg (by omega), if_neg (by omega)]

theorem classify_encodeDiff (d : Int) (hd : inSi4 d) (rest : List Nat) :
    classifyDiff (encodeDiff d ++ rest) = (d, (encodeDiff d).length) := by
  unfold inSi4 at hd
  by_cases h1 : 0 ≤ d ∧ d ≤ 127
  · have he : encodeDiff d = [d.toNat] := by unfold encodeDiff; rw [if_pos h1]
    rw [he, List.cons_append, List.nil_append, classifyDiff_case1 _ _ (by omega)]
    simp only [Prod.mk.injEq, List.length_cons, List.length_nil]
    exact ⟨by omega, by trivial⟩
  by_cases h2 : -64 ≤ d ∧ d < 0
  · have he : encodeDiff d = [128 + (-d - 1).toNat] := by
      unfold encodeDiff; rw [if_neg h1, if_pos h2]
    rw [he, List.cons_append, List.nil_append,
      classifyDiff_case2 _ _ (by omega) (by omega)]
    simp only [Prod.mk.injEq, List.length_cons, List.length_nil]
    exact ⟨by omega, by trivial⟩
  by_cases h3 : -4096 ≤ d ∧ d ≤ 4095
  · by_cases hneg : d < 0
    · have he : encodeDiff d =
          [192 + 16 + (-d - 1).toNat / 2 ^ 8 % 16, (-d - 1).toNat % 256] := by
        unfold encodeDiff
        rw [if_neg h1, if_neg h2, if_pos h3, if_pos hneg, if_neg (by omega)]
      set v : Nat := (-d - 1).toNat with hv
      have hvlt : v < 4096 := by omega
      have hdig : v / 2 ^ 8 % 16 = v / 2 ^ 8 := Nat.mod_eq_of_lt (by omega)
      rw [he, List.cons_append, List.cons_append, List.nil_append,
        classifyDiff_case3 _ _ _ (by omega) (by omega)]
      have hb16 : (192 + 16 + v / 2 ^ 8 % 16) / 16 % 2 = 1 := by omega
      rw [if_pos hb16]
      simp only [Prod.mk.injEq, List.length_cons, List.length_nil]
      constructor
      · have : (192 + 16 + v / 2 ^ 8 % 16) % 16 = v / 2 ^ 8 := by omega
        rw [this]
        omega
      · trivial
    · have he : encodeDiff d =
          [192 + 0 + d.toNat / 2 ^ 8 % 16, d.toNat % 256] := by
        unfold encodeDiff
        rw [if_neg h1, if_neg h2, if_pos h3, if_neg hneg, if_pos (by omega)]
      set v : Nat := d.toNat with hv
      have hvlt : v < 4096 := by omega
      have hdig : v / 2 ^ 8 % 16 = v / 2 ^ 8 := Nat.mod_eq_of_lt (by omega)
      rw [he, List.cons_append, List.cons_append, List.nil_append,
        classifyDiff_case3 _ _ _ (by omega) (by omega)]
      have hb16 : (192 + 0 + v / 2 ^ 8 % 16) / 16 % 2 = 0 := by omega
      rw [if_neg (by omega)]
      simp only [Prod.mk.injEq, List.length_cons, List.length_nil]
      constructor
      · have : (192 + 0 + v / 2 ^ 8 % 16) % 16 = v / 2 ^ 8 := by omega
        rw [this]
        omega
      · trivial
  by_cases h4 : -524288 ≤ d ∧ d ≤ 524287
  · by_cases hneg : d < 0
    · have he : encodeDiff d =
          [224 + 8 + (-d - 1).toNat / 2 ^ 16 % 8,
           (-d - 1).toNat / 2 ^ 8 % 256, (-d - 1).toNat % 256] := by
        unfold encodeDiff
        rw [if_neg h1, if_neg h2, if_neg h3, if_pos h4, if_pos hneg, if_neg (by omega)]
      set v : Nat := (-d - 1).toNat with hv
      have hvlt : v < 524288 := by omega
      have hdig : v / 2 ^ 16 % 8 = v / 2 ^ 16 := Nat.mod_eq_of_lt (by omega)
      rw [he, List.cons_append, List.cons_append, List.cons_append, List.nil_append,
        classifyDiff_case4 _ _ _ _ (by omega) (by omega)]
      have hb8 : (224 + 8 + v / 2 ^ 16 % 8) / 8 % 2 = 1 := by omega
      rw [if_pos hb8]
      simp only [Prod.mk.injEq, List.length_cons, List.length_nil]
      constructor
      · have : (224 + 8 + v / 2 ^ 16 % 8) % 8 = v / 2 ^ 16 := by omega
        rw [this]
        omega
      · trivial
    · have he : encodeDiff d =
          [224 + 0 + d.toNat / 2 ^ 16 % 8,
           d.toNat / 2 ^ 8 % 256, d.toNat % 256] := by
        unfold encodeDiff
        rw [if_neg h1, if_neg h2, if_neg h3, if_pos h4, if_neg hneg, if_pos (by omega)]
      set v : Nat := d.toNat with hv
      have hvlt : v < 524288 := by omega
      have hdig : v / 2 ^ 16 % 8 = v / 2 ^ 16 := Nat.mod_eq_of_lt (by omega)
      rw [he, List.cons_append, List.cons_append, List.cons_append, List.nil_append,
        classifyDiff_case4 _ _ _ _ (by omega) (by omega)]
      have hb8 : (224 + 0 + v / 2 ^ 16 % 8) / 8 % 2 = 0 := by omega
      rw [if_neg (by omega)]
      simp only [Prod.mk.injEq, List.length_cons, List.length_nil]
      constructor
      · have : (224 + 0 + v / 2 ^ 16 % 8) % 8 = v / 2 ^ 16 := by omega
        rw [this]
        omega
      · trivial
  · have he : encodeDiff d =
        [240, toUi32 d / 2 ^ 24 % 256, toUi32 d / 2 ^ 16 % 256,
         toUi32 d / 2 ^ 8 % 256, toUi32 d % 256] := by
      unfold encodeDiff; rw [if_neg h1, if_neg h2, if_neg h3, if_neg h4]
    rw [he]
    simp only [List.cons_append, List.nil_append]
    rw [classifyDiff_case5 _ _ _ _ _ _ (by omega)]
    simp only [Prod.mk.injEq, List.length_cons, List.length_nil]
    set u : Nat := toUi32 d with hu
    have hult : u < 2 ^ 32 := by unfold toUi32 at hu; omega
    have hueq : (u : Int) = d % 2 ^ 32 := by
      unfold toUi32 at hu; omega
    have hre : u / 2 ^ 24 % 256 * 2 ^ 24 + u / 2 ^ 16 % 256 * 2 ^ 16 +
        u / 2 ^ 8 % 256 * 2 ^ 8 + u % 256 = u := by omega
    rw [hre]
    unfold toSi32
    constructor
    · split_ifs with hcase <;> omega
    · trivial

theorem decodeLoop_encodeDiff (d : Int) (hd : inSi4 d) (rest : List Nat)
    (bRest n : Nat) (prev : Int) (first : Bool) :
    decodeLoop (encodeDiff d ++ rest) ((encodeDiff d).length + bRest) (n + 1) prev first =
      (if first then d else wrap32 (prev + d)) ::
        decodeLoop rest bRest n (if first then d else wrap32 (prev + d)) false := by
  have hpos := encodeDiff_length_pos d
  simp only [decodeLoop, classify_encodeDiff d hd rest]
  rw [if_neg (by omega)]
  simp only [List.drop_left]
  have hb : (encodeDiff d).length + bRest - (encodeDiff d).length = bRest := by omega
  rw [hb]

theorem decodeLoop_encodeDiffList (ds : List Int) (hds : ∀ d ∈ ds, inSi4 d)
    (pad : List Nat) (prev : Int) (first : Bool) :
    decodeLoop (encodeDiffList ds ++ pad) (encodeDiffList ds).length ds.length prev first =
      resumDiffs prev first ds := by
  induction ds generalizing prev first with
  | nil => simp [encodeDiffList, resumDiffs, decodeLoop]
  | cons d ds ih =>
    have hd : inSi4 d := hds d (by simp)
    have hds2 : ∀ x ∈ ds, inSi4 x := fun x hx => hds x (by simp [hx])
    have hsplit : encodeDiffList (d :: ds) = encodeDiff d ++ encodeDiffList ds := by
      simp [encodeDiffList]
    rw [hsplit, List.append_assoc, List.length_append, List.length_cons,
      decodeLoop_encodeDiff d hd _ _ _ prev first, ih hds2]
    simp [resumDiffs]

theorem resumDiffs_diffsAux (vs : List Int) (hvs : ∀ x ∈ vs, inSi4 x) (prev : Int) :
    resumDiffs prev false (diffsAux prev vs) = vs := by
  induction vs generalizing prev with
  | nil => simp [diffsAux, resumDiffs]
  | cons y ys ih =>
    have hy : inSi4 y := hvs y (by simp)
    show resumDiffs prev false (wrap32 (y - prev) :: diffsAux y ys) = y :: ys
    simp only [resumDiffs, Bool.false_eq_true, if_false]
    rw [wrap32_add_wrap32]
    have hw : wrap32 (prev + (y - prev)) = y := by
      rw [show prev + (y - prev) = y by ring, wrap32_eq_self hy]
    rw [hw]
    simp only [List.cons.injEq, true_and]
    exact ih (fun x hx => hvs x (by simp [hx])) y

theorem resumDiffs_diffsOf (v : List Int) (hv : ∀ x ∈ v, inSi4 x) :
    resumDiffs 0 true (diffsOf v) = v := by
  cases v with
  | nil => simp [diffsOf, resumDiffs]
  | cons x xs =>
    show resumDiffs 0 true (x :: diffsAux x xs) = x :: xs
    simp only [resumDiffs, if_true]
    simp only [List.cons.injEq, true_and]
    exact resumDiffs_diffsAux xs (fun y hy => hv y (by simp [hy])) x

theorem diffsAux_length (prev : Int) (vs : List Int) :
    (diffsAux prev vs).length = vs.length := by
  induction vs generalizing prev with
  | nil => rfl
  | cons y ys ih => simp [diffsAux, ih]

theorem diffsOf_length (v : List Int) : (diffsOf v).length = v.length := by
  cases v with
  | nil => rfl
  | cons x xs => simp [diffsOf, diffsAux_length]

theorem diffsAux_inSi4 (prev : Int) (vs : List Int) :
    ∀ d ∈ diffsAux prev vs, inSi4 d := by
  induction vs generalizing prev with
  | nil => simp [diffsAux]
  | cons y ys ih =>
    intro d hd
    simp only [diffsAux, List.mem_cons] at hd
    rcases hd with h | h
    · rw [h]; exact wrap32_inSi4 _
    · exact ih y d h

theorem diffsOf_inSi4 (v : List Int) (hv : ∀ x ∈ v, inSi4 x) :
    ∀ d ∈ diffsOf v, inSi4 d := by
  cases v with
  | nil => simp [diffsOf]
  | cons x xs =>
    intro d hd
    simp only [diffsOf, List.mem_cons] at hd
    rcases hd with h | h
    · rw [h]; exact hv x (by simp)
    · exact diffsAux_inSi4 x xs d h

theorem encodeDiffList_length_le (ds : List Int) :
    (encodeDiffList ds).length ≤ 5 * ds.length := by
  induction ds with
  | nil => simp [encodeDiffList]
  | cons d ds ih =>
    have h1 := encodeDiff_length_le d
    have : encodeDiffList (d :: ds) = encodeDiff d ++ encodeDiffList ds := by
      simp [encodeDiffList]
    rw [this, List.length_append, List.length_cons]
    omega

/-! ## CRC range and header serialization lemmas -/

theorem crcStep_lt (c : Nat) (h : c < 2 ^ 32) : CRC32.crcStep c < 2 ^ 32 := by
  unfold CRC32.crcStep CRC32.KOOPMAN32
  split_ifs
  · exact Nat.xor_lt_two_pow (by omega) (by norm_num)
  · omega

theorem tableEntry_lt (i : Nat) (h : i < 2 ^ 32) : CRC32.tableEntry i < 2 ^ 32 := by
  unfold CRC32.tableEntry
  exact crcStep_lt _ (crcStep_lt _ (crcStep_lt _ (crcStep_lt _ (crcStep_lt _
    (crcStep_lt _ (crcStep_lt _ (crcStep_lt _ h)))))))

theorem updateByte_lt (crc b : Nat) (h : crc < 2 ^ 32) : CRC32.updateByte crc b < 2 ^ 32 := by
  unfold CRC32.updateByte
  exact Nat.xor_lt_two_pow (tableEntry_lt _ (by omega)) (by omega)

theorem crc_update_lt (bytes : List Nat) (crc : Nat) (h : crc < 2 ^ 32) :
    CRC32.update bytes crc < 2 ^ 32 := by
  induction bytes generalizing crc with
  | nil => exact h
  | cons b bs ih =>
    unfold CRC32.update at *
    exact ih _ (updateByte_lt _ _ h)

theorem crc_calculate_lt (bytes : List Nat) : CRC32.calculate bytes < 2 ^ 32 :=
  crc_update_lt bytes _ (by norm_num [CRC32.CRC_START_VALUE])

attribute [irreducible] CRC32.crcStep CRC32.tableEntry CRC32.updateByte
  CRC32.update CRC32.calculate

theorem toSi64_toUi64 {t : Int} (h : inSi8 t) : toSi64 (toUi64 t) = t := by
  unfold toSi64 toUi64 inSi8 at *
  split_ifs <;> omega

theorem compute_statistics_length (ds : List Int) :
    (REDCodec.compute_statistics ds).length = 256 := by
  simp only [REDCodec.compute_statistics, apply_ite List.length,
    List.length_replicate, List.length_map, List.length_range, ite_self]

attribute [irreducible] REDCodec.compute_statistics

theorem serializeREDHeader_length (h : REDBlockHeader)
    (hstats : h.statistics.length = 256) : (serializeREDHeader h).length = 304 := by
  simp [serializeREDHeader, redHeaderTail, le32, le64, hstats]

theorem redHeaderTail_update_crc (h : REDBlockHeader) (c : Nat) :
    redHeaderTail { h with block_CRC := c } = redHeaderTail h := rfl

/-! Chunk-skip lemmas for reading fields of concatenated byte images. -/

theorem byteAt_append_right (xs ys : List Nat) (i : Nat) (h : xs.length ≤ i) :
    byteAt (xs ++ ys) i = byteAt ys (i - xs.length) := by
  unfold byteAt
  exact List.getD_append_right _ _ _ _ h

theorem byteAt_cons_zero (b : Nat) (rest : List Nat) : byteAt (b :: rest) 0 = b := rfl

theorem readLE32_append_right (xs ys : List Nat) (off : Nat) (h : xs.length ≤ off) :
    readLE32 (xs ++ ys) off = readLE32 ys (off - xs.length) := by
  unfold readLE32
  rw [byteAt_append_right _ _ _ (by omega), byteAt_append_right _ _ _ (by omega),
    byteAt_append_right _ _ _ (by omega), byteAt_append_right _ _ _ (by omega),
    show off + 1 - xs.length = off - xs.length + 1 by omega,
    show off + 2 - xs.length = off - xs.length + 2 by omega,
    show off + 3 - xs.length = off - xs.length + 3 by omega]

theorem readLE64_append_right (xs ys : List Nat) (off : Nat) (h : xs.length ≤ off) :
    readLE64 (xs ++ ys) off = readLE64 ys (off - xs.length) := by
  unfold readLE64
  rw [byteAt_append_right _ _ _ (by omega), byteAt_append_right _ _ _ (by omega),
    byteAt_append_right _ _ _ (by omega), byteAt_append_right _ _ _ (by omega),
    byteAt_append_right _ _ _ (by omega), byteAt_append_right _ _ _ (by omega),
    byteAt_append_right _ _ _ (by omega), byteAt_append_right _ _ _ (by omega),
    show off + 1 - xs.length = off - xs.length + 1 by omega,
    show off + 2 - xs.length = off - xs.length + 2 by omega,
    show off + 3 - xs.length = off - xs.length + 3 by omega,
    show off + 4 - xs.length = off - xs.length + 4 by omega,
    show off + 5 - xs.length = off - xs.length + 5 by omega,
    show off + 6 - xs.length = off - xs.length + 6 by omega,
    show off + 7 - xs.length = off - xs.length + 7 by omega]

theorem drop_append_right (xs ys : List Nat) (k : Nat) (h : xs.length ≤ k) :
    (xs ++ ys).drop k = ys.drop (k - xs.length) := by
  rw [List.drop_append_eq_append_drop, List.drop_eq_nil_of_le h, List.nil_append]

theorem byteAt_singleton_append (b : Nat) (rest : List Nat) :
    byteAt ([b] ++ rest) 0 = b := rfl

theorem le32_length (u : Nat) : (le32 u).length = 4 := rfl

theorem le64_length (u : Nat) : (le64 u).length = 8 := rfl

theorem readLE32_le32 (u : Nat) (hu : u < 2 ^ 32) (rest : List Nat) :
    readLE32 (le32 u ++ rest) 0 = u := by
  have e : readLE32 (le32 u ++ rest) 0 =
      u % 256 + u / 2 ^ 8 % 256 * 2 ^ 8 + u / 2 ^ 16 % 256 * 2 ^ 16 +
      u / 2 ^ 24 % 256 * 2 ^ 24 := rfl
  rw [e]; omega

theorem readLE64_le64 (u : Nat) (hu : u < 2 ^ 64) (rest : List Nat) :
    readLE64 (le64 u ++ rest) 0 = u := by
  have e : readLE64 (le64 u ++ rest) 0 =
      u % 256 + u / 2 ^ 8 % 256 * 2 ^ 8 + u / 2 ^ 16 % 256 * 2 ^ 16 +
      u / 2 ^ 24 % 256 * 2 ^ 24 + u / 2 ^ 32 % 256 * 2 ^ 32 +
      u / 2 ^ 40 % 256 * 2 ^ 40 + u / 2 ^ 48 % 256 * 2 ^ 48 +
      u / 2 ^ 56 % 256 * 2 ^ 56 := rfl
  rw [e]; omega

theorem toUi64_lt (t : Int) : toUi64 t < 2 ^ 64 := by unfold toUi64; omega

/-- Parsing the memcpy image of a RED block header returns the header,
provided every `ui4` field fits 32 bits, the start time fits `si8`, and
the statistics array has its declared 256 bytes. -/
theorem parseREDHeader_serialize (h : REDBlockHeader) (payload : List Nat)
    (hstats : h.statistics.length = 256)
    (hc : h.block_CRC < 2 ^ 32) (hsl : h.detrend_slope < 2 ^ 32)
    (hit : h.detrend_intercept < 2 ^ 32) (hsc : h.scale_factor < 2 ^ 32)
    (hdb : h.difference_bytes < 2 ^ 32) (hn : h.number_of_samples < 2 ^ 32)
    (hbb : h.block_bytes < 2 ^ 32) (ht : inSi8 h.start_time) :
    parseREDHeader (serializeREDHeader h ++ payload) = h := by
  obtain ⟨crc, flags, sl, it, sc, db, n, bb, t, stats⟩ := h
  simp only at hstats hc hsl hit hsc hdb hn hbb ht
  have acc : serializeREDHeader ⟨crc, flags, sl, it, sc, db, n, bb, t, stats⟩ ++ payload =
      le32 crc ++ ([flags] ++ (List.replicate 3 PAD_BYTE_VALUE ++
      (List.replicate 8 PAD_BYTE_VALUE ++ (le32 sl ++ (le32 it ++ (le32 sc ++
      (le32 db ++ (le32 n ++ (le32 bb ++ (le64 (toUi64 t) ++
      (stats ++ payload))))))))))) := by
    simp [serializeREDHeader, redHeaderTail, List.append_assoc]
  unfold parseREDHeader
  rw [acc]
  simp only [readLE32_append_right, readLE64_append_right, byteAt_append_right,
    drop_append_right, le32_length, le64_length, List.length_replicate,
    List.length_singleton, le_refl, Nat.reduceLeDiff, Nat.reduceSub,
    List.drop_zero]
  rw [readLE32_le32 crc hc, readLE32_le32 sl hsl, readLE32_le32 it hit,
    readLE32_le32 sc hsc, readLE32_le32 db hdb, readLE32_le32 n hn,
    readLE32_le32 bb hbb, readLE64_le64 _ (toUi64_lt t), toSi64_toUi64 ht,
    byteAt_singleton_append]
  congr 1
  rw [← hstats, List.take_left]

theorem serialize_drop_304 (h : REDBlockHeader) (payload : List Nat)
    (hstats : h.statistics.length = 256) :
    (serializeREDHeader h ++ payload).drop RED_BLOCK_HEADER_BYTES = payload := by
  obtain ⟨crc, flags, sl, it, sc, db, n, bb, t, stats⟩ := h
  simp only at hstats
  have hlen : (serializeREDHeader ⟨crc, flags, sl, it, sc, db, n, bb, t, stats⟩).length
      = 304 := serializeREDHeader_length _ hstats
  rw [show RED_BLOCK_HEADER_BYTES = (serializeREDHeader
      ⟨crc, flags, sl, it, sc, db, n, bb, t, stats⟩).length by
        rw [hlen]; rfl, List.drop_left]

/-! ## Decompression of a compressed block -/

namespace REDCodec

theorem encOf_length_le (v : List Int) : (encOf v).length ≤ 5 * v.length := by
  have h := encodeDiffList_length_le (diffsOf v)
  rw [diffsOf_length] at h
  exact h

theorem headerOf_block_CRC (v : List Int) (t0 : Int) (params : CompressionParams)
    (crc : Nat) : (headerOf v t0 params crc).block_CRC = crc := rfl

theorem headerOf_detrend_slope (v : List Int) (t0 : Int) (params : CompressionParams)
    (crc : Nat) : (headerOf v t0 params crc).detrend_slope = 0 := rfl

theorem headerOf_detrend_intercept (v : List Int) (t0 : Int) (params : CompressionParams)
    (crc : Nat) : (headerOf v t0 params crc).detrend_intercept = 0 := rfl

theorem headerOf_scale_factor (v : List Int) (t0 : Int) (params : CompressionParams)
    (crc : Nat) : (headerOf v t0 params crc).scale_factor = 0x3F800000 := rfl

theorem headerOf_difference_bytes (v : List Int) (t0 : Int) (params : CompressionParams)
    (crc : Nat) :
    (headerOf v t0 params crc).difference_bytes = (encOf v).length % 2 ^ 32 := rfl

theorem headerOf_number_of_samples (v : List Int) (t0 : Int) (params : CompressionParams)
    (crc : Nat) : (headerOf v t0 params crc).number_of_samples = v.length := rfl

theorem headerOf_block_bytes (v : List Int) (t0 : Int) (params : CompressionParams)
    (crc : Nat) : (headerOf v t0 params crc).block_bytes =
      (RED_BLOCK_HEADER_BYTES + (encOf v).length + padLenOf v) % 2 ^ 32 := rfl

theorem headerOf_start_time (v : List Int) (t0 : Int) (params : CompressionParams)
    (crc : Nat) : (headerOf v t0 params crc).start_time = t0 := rfl

theorem headerOf_statistics_length (v : List Int) (t0 : Int)
    (params : CompressionParams) (crc : Nat) :
    (headerOf v t0 params crc).statistics.length = 256 := by
  show (REDCodec.compute_statistics (diffsOf v)).length = 256
  exact compute_statistics_length _

theorem compress_compressed_data (v : List Int) (t0 : Int) (params : CompressionParams)
    (hne : v.length ≠ 0) :
    (compress (some v) t0 params).compressed_data =
      le32 (CRC32.calculate (bodyOf v t0 params)) ++ bodyOf v t0 params := by
  simp only [compress]
  rw [if_neg hne]

theorem compress_block_header (v : List Int) (t0 : Int) (params : CompressionParams)
    (hne : v.length ≠ 0) :
    (compress (some v) t0 params).block_header =
      headerOf v t0 params (CRC32.calculate (bodyOf v t0 params)) := by
  simp only [compress]
  rw [if_neg hne]

theorem compress_success (v : List Int) (t0 : Int) (params : CompressionParams)
    (hne : v.length ≠ 0) : (compress (some v) t0 params).success = true := by
  simp only [compress]
  rw [if_neg hne]

theorem compress_index (v : List Int) (t0 : Int) (params : CompressionParams)
    (hne : v.length ≠ 0) :
    (compress (some v) t0 params).index =
      { file_offset := 0
        start_time := t0
        start_sample := 0
        number_of_samples := v.length
        block_bytes := (RED_BLOCK_HEADER_BYTES + (encOf v).length + padLenOf v) % 2 ^ 32
        maximum_sample_value := (find_extrema v).2
        minimum_sample_value := (find_extrema v).1
        RED_block_flags := if params.discontinuity then RED_DISCONTINUITY_MASK else 0 } := by
  simp only [compress]
  rw [if_neg hne]

theorem decompressedSamples_of_compress (v : List Int) (t0 : Int)
    (params : CompressionParams) (hv : ∀ x ∈ v, inSi4 x) (crc : Nat)
    (hfit : (encOf v).length < 2 ^ 32) :
    decompressedSamples (headerOf v t0 params crc)
      (encOf v ++ List.replicate (padLenOf v) PAD_BYTE_VALUE) = v := by
  have hdb : (headerOf v t0 params crc).difference_bytes = (encOf v).length := by
    show (encOf v).length % 2 ^ 32 = (encOf v).length
    exact Nat.mod_eq_of_lt hfit
  have hn : (headerOf v t0 params crc).number_of_samples = v.length := rfl
  have hsc : (headerOf v t0 params crc).scale_factor = 0x3F800000 := rfl
  unfold decompressedSamples
  rw [hdb, hn, hsc, if_neg (by simp)]
  have hdec : decodeLoop (encOf v ++ List.replicate (padLenOf v) PAD_BYTE_VALUE)
      (encOf v).length v.length 0 true = v := by
    unfold encOf
    conv in v.length => rw [← diffsOf_length v]
    rw [decodeLoop_encodeDiffList (diffsOf v) (diffsOf_inSi4 v hv) _ 0 true]
    exact resumDiffs_diffsOf v hv
  rw [hdec]
  simp

/-- Decompressing the bytes produced by `compress` recovers the samples
and the (CRC-patched) block header. -/
theorem decompress_compress (v : List Int) (t0 : Int) (params : CompressionParams)
    (pw : Option PasswordData) (hlen1 : 1 ≤ v.length) (hlen2 : v.length ≤ 10000)
    (hv : ∀ x ∈ v, inSi4 x) (ht : inSi8 t0) :
    decompress (some ((compress (some v) t0 params).compressed_data)) pw =
      { samples := v
        block_header := (compress (some v) t0 params).block_header
        success := true } := by
  have hne : ¬(v.length = 0) := by omega
  have hfit : (encOf v).length < 2 ^ 32 := by
    have := encOf_length_le v
    omega
  have hstats : (headerOf v t0 params
      (CRC32.calculate (bodyOf v t0 params))).statistics.length = 256 :=
    headerOf_statistics_length v t0 params _
  have htails : redHeaderTail (headerOf v t0 params
      (CRC32.calculate (bodyOf v t0 params))) =
      redHeaderTail (headerOf v t0 params CRC_NO_ENTRY) := rfl
  have hcrceq : (headerOf v t0 params (CRC32.calculate (bodyOf v t0 params))).block_CRC =
      CRC32.calculate (bodyOf v t0 params) := rfl
  have hser : le32 (CRC32.calculate (bodyOf v t0 params)) ++ bodyOf v t0 params =
      serializeREDHeader (headerOf v t0 params
        (CRC32.calculate (bodyOf v t0 params))) ++
      (encOf v ++ List.replicate (padLenOf v) PAD_BYTE_VALUE) := by
    unfold serializeREDHeader
    rw [htails, hcrceq]
    simp only [bodyOf, List.append_assoc]
  rw [compress_compressed_data v t0 params hne, compress_block_header v t0 params hne,
    hser]
  have hbig : ¬((serializeREDHeader (headerOf v t0 params
      (CRC32.calculate (bodyOf v t0 params))) ++
      (encOf v ++ List.replicate (padLenOf v) PAD_BYTE_VALUE)).length <
      RED_BLOCK_HEADER_BYTES) := by
    rw [List.length_append, serializeREDHeader_length _ hstats]
    unfold RED_BLOCK_HEADER_BYTES
    omega
  simp only [decompress]
  rw [if_neg hbig,
    parseREDHeader_serialize _ _ hstats (crc_calculate_lt _)
      (by rw [headerOf_detrend_slope]; norm_num)
      (by rw [headerOf_detrend_intercept]; norm_num)
      (by rw [headerOf_scale_factor]; norm_num)
      (by rw [headerOf_difference_bytes]; omega)
      (by rw [headerOf_number_of_samples]; omega)
      (by rw [headerOf_block_bytes]; omega)
      (by rw [headerOf_start_time]; exact ht)]
  rw [if_neg (by rw [headerOf_number_of_samples]; omega),
    serialize_drop_304 _ _ hstats,
    decompressedSamples_of_compress v t0 params hv _ hfit]

end REDCodec

/-- C1: for every si4 sample vector `v` of length between 1 and 10000 and
every si8 start time `t0`, `REDCodec::decompress` applied to the
`compressed_data` produced by `REDCodec::compress(v, t0)` succeeds and
returns a samples vector equal to `v`, and the decoded block header's
`number_of_samples`, `start_time` and `flags` fields equal those written
by `compress` (the differences are 32-bit wraparound values inverted by
the prefix sum `s[0] = d[0]`, `s[i] = s[i-1] + d[i]`). -/
theorem C1_red_block_roundtrip (v : List Int) (t0 : Int) (params : CompressionParams)
    (hlen1 : 1 ≤ v.length) (hlen2 : v.length ≤ 10000)
    (hv : ∀ x ∈ v, inSi4 x) (ht : inSi8 t0) :
    (REDCodec.compress (some v) t0 params).success = true ∧
    (REDCodec.decompress
      (some ((REDCodec.compress (some v) t0 params).compressed_data)) none).success = true ∧
    (REDCodec.decompress
      (some ((REDCodec.compress (some v) t0 params).compressed_data)) none).samples = v ∧
    (REDCodec.decompress
      (some ((REDCodec.compress (some v) t0 params).compressed_data))
        none).block_header.number_of_samples =
      (REDCodec.compress (some v) t0 params).block_header.number_of_samples ∧
    (REDCodec.decompress
      (some ((REDCodec.compress (some v) t0 params).compressed_data))
        none).block_header.start_time =
      (REDCodec.compress (some v) t0 params).block_header.start_time ∧
    (REDCodec.decompress
      (some ((REDCodec.compress (some v) t0 params).compressed_data))
        none).block_header.flags =
      (REDCodec.compress (some v) t0 params).block_header.flags := by
  have h := REDCodec.decompress_compress v t0 params none hlen1 hlen2 hv ht
  exact ⟨REDCodec.compress_success v t0 params (by omega), by rw [h], by rw [h],
    by rw [h], by rw [h], by rw [h]⟩

/-- Witness for C1 at `v = [100, 102, 105]`, `t0 = 1000000`, default
parameters. -/
theorem C1_red_block_roundtrip_witness :
    (1 ≤ ([100, 102, 105] : List Int).length ∧
     ([100, 102, 105] : List Int).length ≤ 10000 ∧
     (∀ x ∈ ([100, 102, 105] : List Int), inSi4 x) ∧ inSi8 1000000) ∧
    (REDCodec.decompress
      (some ((REDCodec.compress (some [100, 102, 105]) 1000000 {}).compressed_data))
        none).samples = [100, 102, 105] :=
  ⟨⟨by decide, by decide, by decide, by decide⟩,
   (C1_red_block_roundtrip [100, 102, 105] 1000000 {} (by decide) (by decide)
     (by decide) (by decide)).2.2.1⟩

/-! ## C10: guard clauses of compress and decompress -/

/-- C10: `REDCodec::compress` called with `num_samples == 0` or a null
sample pointer, and `REDCodec::decompress` called with a null buffer or
one shorter than the 304-byte block header, return a default result:
success flag false and empty output. -/
theorem C10_guard_clauses (t0 : Int) (params : CompressionParams)
    (pw : Option PasswordData) (bs : List Nat)
    (h : bs.length < RED_BLOCK_HEADER_BYTES) :
    (REDCodec.compress none t0 params).success = false ∧
    (REDCodec.compress none t0 params).compressed_data = [] ∧
    (REDCodec.compress (some []) t0 params).success = false ∧
    (REDCodec.compress (some []) t0 params).compressed_data = [] ∧
    (REDCodec.decompress none pw).success = false ∧
    (REDCodec.decompress none pw).samples = [] ∧
    (REDCodec.decompress (some bs) pw).success = false ∧
    (REDCodec.decompress (some bs) pw).samples = [] := by
  refine ⟨rfl, rfl, rfl, rfl, rfl, rfl, ?_, ?_⟩ <;>
    · simp only [REDCodec.decompress]
      rw [if_pos h]

/-- Witness for C10 at `bs = []`. -/
theorem C10_guard_clauses_witness :
    ([] : List Nat).length < RED_BLOCK_HEADER_BYTES ∧
    (REDCodec.decompress (some []) none).success = false :=
  ⟨by decide, (C10_guard_clauses 0 {} none [] (by decide)).2.2.2.2.2.2.1⟩

/-! ## C4: no encryption is performed -/

/-- C4 (amended): `REDCodec::compress` ignores the requested encryption
level entirely - the result is the same for every `encryption_level`,
and neither encryption flag bit is ever set in the block header - and
`REDCodec::decompress` ignores the password data. -/
theorem C4_no_encryption (v : Option (List Int)) (t0 : Int)
    (params : CompressionParams) (buf : Option (List Nat))
    (pw pw2 : Option PasswordData) :
    REDCodec.compress v t0 params =
      REDCodec.compress v t0 { params with encryption_level := 0 } ∧
    (REDCodec.compress v t0 params).block_header.flags &&&
      RED_LEVEL_1_ENCRYPTION_MASK = 0 ∧
    (REDCodec.compress v t0 params).block_header.flags &&&
      RED_LEVEL_2_ENCRYPTION_MASK = 0 ∧
    REDCodec.decompress buf pw = REDCodec.decompress buf pw2 := by
  obtain ⟨m, el, disc, dd, g1, g2, g3, mr, rn, nc⟩ := params
  have hflags : ∀ w : Option (List Int), ∀ pp : CompressionParams,
      (REDCodec.compress w t0 pp).block_header.flags = 0 ∨
      (REDCodec.compress w t0 pp).block_header.flags = RED_DISCONTINUITY_MASK := by
    intro w pp
    match w with
    | none => exact Or.inl rfl
    | some u =>
      by_cases hu : u.length = 0
      · left
        simp only [REDCodec.compress]
        rw [if_pos hu]
      · rw [REDCodec.compress_block_header u t0 pp hu]
        by_cases hd : pp.discontinuity
        · right
          show (if pp.discontinuity then RED_DISCONTINUITY_MASK else 0) = _
          rw [if_pos hd]
        · left
          show (if pp.discontinuity then RED_DISCONTINUITY_MASK else 0) = 0
          rw [if_neg hd]
  refine ⟨?_, ?_, ?_, ?_⟩
  · cases v with
    | none => rfl
    | some u => rfl
  · rcases hflags v ⟨m, el, disc, dd, g1, g2, g3, mr, rn, nc⟩ with h | h <;> rw [h] <;> rfl
  · rcases hflags v ⟨m, el, disc, dd, g1, g2, g3, mr, rn, nc⟩ with h | h <;> rw [h] <;> rfl
  · cases buf with
    | none => rfl
    | some bs => rfl

/-- Witness for C4 (all binders concrete). -/
theorem C4_no_encryption_witness :
    REDCodec.compress (some [5]) 0 { encryption_level := 1 } =
      REDCodec.compress (some [5]) 0
        { ({ encryption_level := 1 } : CompressionParams) with encryption_level := 0 } :=
  (C4_no_encryption (some [5]) 0 { encryption_level := 1 } none none none).1

/-- C4 counterexample: requesting level-1 encryption does not set the
level-1 encryption flag bit of the block written by `compress` (the
claim says the matching flag bit is set). -/
theorem C4_counterexample :
    ({ encryption_level := 1 : CompressionParams }).encryption_level = 1 ∧
    (REDCodec.compress (some [5]) 0
        { encryption_level := 1 }).block_header.flags &&&
      RED_LEVEL_1_ENCRYPTION_MASK = 0 ∧
    (REDCodec.compress (some [5]) 0
        { encryption_level := 2 }).block_header.flags &&&
      RED_LEVEL_2_ENCRYPTION_MASK = 0 := by
  refine ⟨rfl, ?_, ?_⟩ <;>
    · rw [REDCodec.compress_block_header _ _ _ (by decide)]
      decide

/-! ## C8: extrema skip only the NaN sentinel -/

/-- C8 (amended): `REDCodec::find_extrema` ignores only the `RED_NAN`
sentinel (not the infinity sentinels): for a non-empty vector the
returned pair bounds every non-NaN sample, and each bound is either a
non-NaN sample of the vector (so possibly one of the reserved infinity
sentinels `0x80000001`/`0x7FFFFFFF`) or the initial accumulator value
(`RED_MAXIMUM_SAMPLE_VALUE` for the minimum, `RED_MINIMUM_SAMPLE_VALUE`
for the maximum). -/
theorem C8_find_extrema_skips_only_nan (v : List Int) (hv : v ≠ []) :
    (∀ x ∈ v, x ≠ RED_NAN →
      (REDCodec.find_extrema v).1 ≤ x ∧ x ≤ (REDCodec.find_extrema v).2) ∧
    ((REDCodec.find_extrema v).1 = RED_MAXIMUM_SAMPLE_VALUE ∨
      ((REDCodec.find_extrema v).1 ∈ v ∧ (REDCodec.find_extrema v).1 ≠ RED_NAN)) ∧
    ((REDCodec.find_extrema v).2 = RED_MINIMUM_SAMPLE_VALUE ∨
      ((REDCodec.find_extrema v).2 ∈ v ∧ (REDCodec.find_extrema v).2 ≠ RED_NAN)) := by
  have key : ∀ (l : List Int) (mm : Int × Int),
      (∀ x ∈ l, x ≠ RED_NAN →
        (l.foldl REDCodec.extremaStep mm).1 ≤ x ∧ x ≤ (l.foldl REDCodec.extremaStep mm).2) ∧
      ((l.foldl REDCodec.extremaStep mm).1 = mm.1 ∨
        ((l.foldl REDCodec.extremaStep mm).1 ∈ l ∧
         (l.foldl REDCodec.extremaStep mm).1 ≠ RED_NAN)) ∧
      ((l.foldl REDCodec.extremaStep mm).2 = mm.2 ∨
        ((l.foldl REDCodec.extremaStep mm).2 ∈ l ∧
         (l.foldl REDCodec.extremaStep mm).2 ≠ RED_NAN)) ∧
      (l.foldl REDCodec.extremaStep mm).1 ≤ mm.1 ∧
      mm.2 ≤ (l.foldl REDCodec.extremaStep mm).2 := by
    intro l
    induction l with
    | nil => intro mm; refine ⟨by simp, Or.inl rfl, Or.inl rfl, le_refl _, le_refl _⟩
    | cons y ys ih =>
      intro mm
      simp only [List.foldl_cons]
      obtain ⟨ihb, ihm1, ihm2, ihd1, ihd2⟩ := ih (REDCodec.extremaStep mm y)
      have hstep1 : (REDCodec.extremaStep mm y).1 ≤ mm.1 := by
        unfold REDCodec.extremaStep
        by_cases h1 : y = RED_NAN
        · rw [if_pos h1]
        · rw [if_neg h1]
          show (if y < mm.1 then y else mm.1) ≤ mm.1
          split_ifs <;> omega
      have hstep2 : mm.2 ≤ (REDCodec.extremaStep mm y).2 := by
        unfold REDCodec.extremaStep
        by_cases h1 : y = RED_NAN
        · rw [if_pos h1]
        · rw [if_neg h1]
          show mm.2 ≤ (if mm.2 < y then y else mm.2)
          split_ifs <;> omega
      have hstepy : y ≠ RED_NAN →
          (REDCodec.extremaStep mm y).1 ≤ y ∧ y ≤ (REDCodec.extremaStep mm y).2 := by
        intro hy
        unfold REDCodec.extremaStep
        rw [if_neg hy]
        constructor
        · show (if y < mm.1 then y else mm.1) ≤ y
          split_ifs <;> omega
        · show y ≤ (if mm.2 < y then y else mm.2)
          split_ifs <;> omega
      have hstepm1 : (REDCodec.extremaStep mm y).1 = mm.1 ∨
          ((REDCodec.extremaStep mm y).1 = y ∧ y ≠ RED_NAN) := by
        unfold REDCodec.extremaStep
        by_cases h1 : y = RED_NAN
        · rw [if_pos h1]
          exact Or.inl rfl
        · rw [if_neg h1]
          by_cases h2 : y < mm.1
          · refine Or.inr ⟨?_, h1⟩
            show (if y < mm.1 then y else mm.1) = y
            rw [if_pos h2]
          · refine Or.inl ?_
            show (if y < mm.1 then y else mm.1) = mm.1
            rw [if_neg h2]
      have hstepm2 : (REDCodec.extremaStep mm y).2 = mm.2 ∨
          ((REDCodec.extremaStep mm y).2 = y ∧ y ≠ RED_NAN) := by
        unfold REDCodec.extremaStep
        by_cases h1 : y = RED_NAN
        · rw [if_pos h1]
          exact Or.inl rfl
        · rw [if_neg h1]
          by_cases h2 : mm.2 < y
          · refine Or.inr ⟨?_, h1⟩
            show (if mm.2 < y then y else mm.2) = y
            rw [if_pos h2]
          · refine Or.inl ?_
            show (if mm.2 < y then y else mm.2) = mm.2
            rw [if_neg h2]
      refine ⟨?_, ?_, ?_, ?_, ?_⟩
      · intro x hx hxn
        rcases List.mem_cons.mp hx with hx | hx
        · subst hx
          have hy := hstepy hxn
          exact ⟨le_trans ihd1 hy.1, le_trans hy.2 ihd2⟩
        · exact ihb x hx hxn
      · rcases ihm1 with h | h
        · rw [h]
          rcases hstepm1 with h2 | h2
          · exact Or.inl h2
          · exact Or.inr ⟨by rw [h2.1]; exact List.mem_cons_self y ys, by rw [h2.1]; exact h2.2⟩
        · exact Or.inr ⟨List.mem_cons_of_mem y h.1, h.2⟩
      · rcases ihm2 with h | h
        · rw [h]
          rcases hstepm2 with h2 | h2
          · exact Or.inl h2
          · exact Or.inr ⟨by rw [h2.1]; exact List.mem_cons_self y ys, by rw [h2.1]; exact h2.2⟩
        · exact Or.inr ⟨List.mem_cons_of_mem y h.1, h.2⟩
      · exact le_trans ihd1 hstep1
      · exact le_trans hstep2 ihd2
  have hne : ¬(v.length = 0) := by
    intro h
    exact hv (List.length_eq_zero.mp h)
  have hfe : REDCodec.find_extrema v =
      v.foldl REDCodec.extremaStep (RED_MAXIMUM_SAMPLE_VALUE, RED_MINIMUM_SAMPLE_VALUE) := by
    unfold REDCodec.find_extrema
    rw [if_neg hne]
  rw [hfe]
  obtain ⟨hb, hm1, hm2, _, _⟩ :=
    key v (RED_MAXIMUM_SAMPLE_VALUE, RED_MINIMUM_SAMPLE_VALUE)
  exact ⟨hb, hm1, hm2⟩

/-- Witness for C8 at `v = [-100, 50, 200, -300, 150, 0, 75]` (the
vector of the repository test, extrema `(-300, 200)`). -/
theorem C8_find_extrema_witness :
    ([-100, 50, 200, -300, 150, 0, 75] : List Int) ≠ [] ∧
    (REDCodec.find_extrema [-100, 50, 200, -300, 150, 0, 75]).1 ≤ -300 :=
  ⟨by decide,
   ((C8_find_extrema_skips_only_nan [-100, 50, 200, -300, 150, 0, 75]
      (by decide)).1 (-300) (by decide) (by decide)).1⟩

/-- C8 counterexample: on `[0x7FFFFFFF, 5]` the code returns maximum
`0x7FFFFFFF` - the positive-infinity sentinel, outside the legal sample
range `[0x80000002, 0x7FFFFFFE]` - whereas the only sample in the legal
range is 5, so the claimed maximum would be 5. -/
theorem C8_counterexample :
    (REDCodec.find_extrema [2147483647, 5]).2 = 2147483647 ∧
    ([2147483647, 5] : List Int).filter
      (fun x => decide (RED_MINIMUM_SAMPLE_VALUE ≤ x ∧ x ≤ RED_MAXIMUM_SAMPLE_VALUE)) =
      [5] := by
  constructor
  · show (REDCodec.find_extrema [2147483647, 5]).2 = 2147483647
    decide
  · decide

/-! ## C3: no CRC validation on the decode path -/

theorem byteAt_drop (l : List Nat) (n j : Nat) :
    byteAt (l.drop n) j = byteAt l (n + j) := by
  unfold byteAt
  rw [List.getD_eq_getElem?_getD, List.getD_eq_getElem?_getD, List.getElem?_drop]

theorem readLE32_crc_patch (c bs : List Nat) (hc : c.length = 4)
    (off : Nat) (hoff : 4 ≤ off) :
    readLE32 (c ++ bs.drop 4) off = readLE32 bs off := by
  rw [readLE32_append_right _ _ _ (by omega), hc]
  unfold readLE32
  rw [byteAt_drop, byteAt_drop, byteAt_drop, byteAt_drop,
    show 4 + (off - 4) = off by omega,
    show 4 + (off - 4 + 1) = off + 1 by omega,
    show 4 + (off - 4 + 2) = off + 2 by omega,
    show 4 + (off - 4 + 3) = off + 3 by omega]

theorem byteAt_crc_patch (c bs : List Nat) (hc : c.length = 4)
    (off : Nat) (hoff : 4 ≤ off) :
    byteAt (c ++ bs.drop 4) off = byteAt bs off := by
  rw [byteAt_append_right _ _ _ (by omega), hc, byteAt_drop,
    show 4 + (off - 4) = off by omega]

theorem readLE64_crc_patch (c bs : List Nat) (hc : c.length = 4)
    (off : Nat) (hoff : 4 ≤ off) :
    readLE64 (c ++ bs.drop 4) off = readLE64 bs off := by
  unfold readLE64
  rw [byteAt_crc_patch c bs hc off (by omega),
    byteAt_crc_patch c bs hc (off + 1) (by omega),
    byteAt_crc_patch c bs hc (off + 2) (by omega),
    byteAt_crc_patch c bs hc (off + 3) (by omega),
    byteAt_crc_patch c bs hc (off + 4) (by omega),
    byteAt_crc_patch c bs hc (off + 5) (by omega),
    byteAt_crc_patch c bs hc (off + 6) (by omega),
    byteAt_crc_patch c bs hc (off + 7) (by omega)]

theorem decompressedSamples_congr (h1 h2 : REDBlockHeader) (p : List Nat)
    (hdb : h1.difference_bytes = h2.difference_bytes)
    (hn : h1.number_of_samples = h2.number_of_samples)
    (hsc : h1.scale_factor = h2.scale_factor) :
    REDCodec.decompressedSamples h1 p = REDCodec.decompressedSamples h2 p := by
  unfold REDCodec.decompressedSamples
  rw [hdb, hn, hsc]

/-- C3 (amended): the decode path performs no CRC validation at all.
Decompression of a non-null buffer succeeds exactly when the buffer
reaches the 304-byte header size - there are no `TruncatedBlock` /
`CorruptBlock` / `Unauthorized` / `UnsupportedVersion` outcomes, only the
boolean `success` flag - and overwriting the 4-byte `block_CRC` field
with arbitrary bytes changes neither the success flag nor the decoded
samples. -/
theorem C3_no_crc_validation (bs : List Nat) (pw : Option PasswordData)
    (c : List Nat) (hc : c.length = 4) :
    ((REDCodec.decompress (some bs) pw).success = true ↔
      RED_BLOCK_HEADER_BYTES ≤ bs.length) ∧
    (REDCodec.decompress (some (c ++ bs.drop 4)) pw).samples =
      (REDCodec.decompress (some bs) pw).samples ∧
    (REDCodec.decompress (some (c ++ bs.drop 4)) pw).success =
      (REDCodec.decompress (some bs) pw).success := by
  have hlen : (c ++ bs.drop 4).length = 4 + (bs.length - 4) := by
    rw [List.length_append, hc, List.length_drop]
  by_cases hshort : bs.length < RED_BLOCK_HEADER_BYTES
  · have hshort2 : (c ++ bs.drop 4).length < RED_BLOCK_HEADER_BYTES := by
      rw [hlen]
      unfold RED_BLOCK_HEADER_BYTES at *
      omega
    constructor
    · simp only [REDCodec.decompress]
      rw [if_pos hshort]
      exact iff_of_false (fun hx => Bool.noConfusion hx) (by omega)
    constructor <;>
      · simp only [REDCodec.decompress]
        rw [if_pos hshort, if_pos hshort2]
  · have hshort2 : ¬((c ++ bs.drop 4).length < RED_BLOCK_HEADER_BYTES) := by
      rw [hlen]
      unfold RED_BLOCK_HEADER_BYTES at *
      omega
    have hnn : (parseREDHeader (c ++ bs.drop 4)).number_of_samples =
        (parseREDHeader bs).number_of_samples := by
      unfold parseREDHeader
      exact readLE32_crc_patch c bs hc 32 (by omega)
    have hdb : (parseREDHeader (c ++ bs.drop 4)).difference_bytes =
        (parseREDHeader bs).difference_bytes := by
      unfold parseREDHeader
      exact readLE32_crc_patch c bs hc 28 (by omega)
    have hsc : (parseREDHeader (c ++ bs.drop 4)).scale_factor =
        (parseREDHeader bs).scale_factor := by
      unfold parseREDHeader
      exact readLE32_crc_patch c bs hc 24 (by omega)
    have hpay : (c ++ bs.drop 4).drop RED_BLOCK_HEADER_BYTES =
        bs.drop RED_BLOCK_HEADER_BYTES := by
      rw [drop_append_right _ _ _ (by rw [hc]; unfold RED_BLOCK_HEADER_BYTES; omega),
        hc, List.drop_drop]
      congr 1
    refine ⟨?_, ?_, ?_⟩
    · simp only [REDCodec.decompress]
      rw [if_neg hshort]
      by_cases h0 : (parseREDHeader bs).number_of_samples = 0
      · rw [if_pos h0]
        exact iff_of_true rfl (by omega)
      · rw [if_neg h0]
        exact iff_of_true rfl (by omega)
    · simp only [REDCodec.decompress]
      rw [if_neg hshort, if_neg hshort2]
      by_cases h0 : (parseREDHeader bs).number_of_samples = 0
      · rw [if_pos h0, if_pos (hnn.trans h0)]
      · rw [if_neg h0, if_neg (fun hcontra => h0 (hnn.symm.trans hcontra))]
        show REDCodec.decompressedSamples _ _ = REDCodec.decompressedSamples _ _
        rw [hpay]
        exact decompressedSamples_congr _ _ _ hdb hnn hsc
    · simp only [REDCodec.decompress]
      rw [if_neg hshort, if_neg hshort2]
      by_cases h0 : (parseREDHeader bs).number_of_samples = 0
      · rw [if_pos h0, if_pos (hnn.trans h0)]
      · rw [if_neg h0, if_neg (fun hcontra => h0 (hnn.symm.trans hcontra))]

/-- Witness for C3 at `bs = List.replicate 304 0`, `c = [9, 9, 9, 9]`. -/
theorem C3_no_crc_validation_witness :
    ([9, 9, 9, 9] : List Nat).length = 4 ∧
    ((REDCodec.decompress (some (List.replicate 304 0)) none).success = true ↔
      RED_BLOCK_HEADER_BYTES ≤ (List.replicate 304 0).length) :=
  ⟨by decide,
   (C3_no_crc_validation (List.replicate 304 0) none [9, 9, 9, 9] (by decide)).1⟩

unseal REDCodec.compute_statistics in
/-- C3 counterexample: take the block written by `compress([5], 0)` and
overwrite its `block_CRC` field once with `00 00 00 00` and once with
`01 01 01 01`. The two variants carry different stored CRCs over the
same remaining bytes, so at least one of them has a stored `block_CRC`
that mismatches the CRC of its bytes `[4..block_bytes)`; yet both
decompress with `success = true` and return the original samples `[5]`
instead of failing with `CorruptBlock`. -/
theorem C3_counterexample :
    (readLE32 ([0, 0, 0, 0] ++
        ((REDCodec.compress (some [5]) 0 {}).compressed_data.drop 4)) 0 ≠
      CRC32.calculate (([0, 0, 0, 0] ++
        ((REDCodec.compress (some [5]) 0 {}).compressed_data.drop 4)).drop 4) ∨
     readLE32 ([1, 1, 1, 1] ++
        ((REDCodec.compress (some [5]) 0 {}).compressed_data.drop 4)) 0 ≠
      CRC32.calculate (([1, 1, 1, 1] ++
        ((REDCodec.compress (some [5]) 0 {}).compressed_data.drop 4)).drop 4)) ∧
    (REDCodec.decompress (some ([0, 0, 0, 0] ++
      ((REDCodec.compress (some [5]) 0 {}).compressed_data.drop 4))) none).success = true ∧
    (REDCodec.decompress (some ([0, 0, 0, 0] ++
      ((REDCodec.compress (some [5]) 0 {}).compressed_data.drop 4))) none).samples = [5] ∧
    (REDCodec.decompress (some ([1, 1, 1, 1] ++
      ((REDCodec.compress (some [5]) 0 {}).compressed_data.drop 4))) none).success = true ∧
    (REDCodec.decompress (some ([1, 1, 1, 1] ++
      ((REDCodec.compress (some [5]) 0 {}).compressed_data.drop 4))) none).samples = [5] := by
  refine ⟨?_, by decide, by decide, by decide, by decide⟩
  by_contra h
  push_neg at h
  obtain ⟨h1, h2⟩ := h
  have e1 : readLE32 ([0, 0, 0, 0] ++
      ((REDCodec.compress (some [5]) 0 {}).compressed_data.drop 4)) 0 = 0 := rfl
  have e2 : readLE32 ([1, 1, 1, 1] ++
      ((REDCodec.compress (some [5]) 0 {}).compressed_data.drop 4)) 0 = 16843009 := rfl
  have e3 : ([0, 0, 0, 0] ++
      ((REDCodec.compress (some [5]) 0 {}).compressed_data.drop 4)).drop 4 =
      ((REDCodec.compress (some [5]) 0 {}).compressed_data.drop 4) := by
    rw [drop_append_right _ _ _ (by norm_num)]
    norm_num
  have e4 : ([1, 1, 1, 1] ++
      ((REDCodec.compress (some [5]) 0 {}).compressed_data.drop 4)).drop 4 =
      ((REDCodec.compress (some [5]) 0 {}).compressed_data.drop 4) := by
    rw [drop_append_right _ _ _ (by norm_num)]
    norm_num
  rw [e1, e3] at h1
  rw [e2, e4] at h2
  rw [← h1] at h2
  exact absurd h2 (by norm_num)

/-! ## C2: precision of the write/read round trip -/

theorem roundHalfAway_sub_le (q : Rat) :
    |((REDCodec.roundHalfAway q : Int) : Rat) - q| ≤ 1 / 2 := by
  unfold REDCodec.roundHalfAway
  by_cases h : 0 ≤ q
  · rw [if_pos h]
    have h1 : ((⌊q + 1 / 2⌋ : Int) : Rat) ≤ q + 1 / 2 := Int.floor_le _
    have h2 : q + 1 / 2 - 1 < ((⌊q + 1 / 2⌋ : Int) : Rat) := Int.sub_one_lt_floor _
    rw [abs_le]
    constructor <;> linarith
  · rw [if_neg h]
    have h1 : q - 1 / 2 ≤ ((⌈q - 1 / 2⌉ : Int) : Rat) := Int.le_ceil _
    have h2 : ((⌈q - 1 / 2⌉ : Int) : Rat) < q - 1 / 2 + 1 := Int.ceil_lt_add_one _
    rw [abs_le]
    constructor <;> linarith

theorem roundHalfAway_bounds (lo hi : Int) (q : Rat) (hlo : lo ≤ 0) (hhi : 0 ≤ hi)
    (h1 : (lo : Rat) ≤ q) (h2 : q ≤ (hi : Rat)) :
    lo ≤ REDCodec.roundHalfAway q ∧ REDCodec.roundHalfAway q ≤ hi := by
  unfold REDCodec.roundHalfAway
  by_cases h : 0 ≤ q
  · rw [if_pos h]
    refine ⟨Int.le_floor.mpr (by push_cast; linarith), ?_⟩
    have hf := Int.floor_lt.mpr (show q + 1 / 2 < ((hi + 1 : Int) : Rat) by push_cast; linarith)
    omega
  · rw [if_neg h]
    refine ⟨?_, Int.ceil_le.mpr (by push_cast; linarith)⟩
    have hc := Int.lt_ceil.mpr (show ((lo - 1 : Int) : Rat) < q - 1 / 2 by push_cast; linarith)
    omega

theorem clamp_le_max (p : Nat) (q : Rat) :
    max ((RED_MINIMUM_SAMPLE_VALUE : Int) : Rat)
      (min (q * 10 ^ p) ((RED_MAXIMUM_SAMPLE_VALUE : Int) : Rat)) ≤
    ((RED_MAXIMUM_SAMPLE_VALUE : Int) : Rat) := by
  apply max_le
  · unfold RED_MINIMUM_SAMPLE_VALUE RED_MAXIMUM_SAMPLE_VALUE
    push_cast
    norm_num
  · exact min_le_right _ _

theorem quantizeSample_ne_nan (p : Nat) (q : Rat) :
    quantizeSample p (some q) ≠ RED_NAN := by
  show REDCodec.roundHalfAway (max ((RED_MINIMUM_SAMPLE_VALUE : Int) : Rat)
    (min (q * 10 ^ p) ((RED_MAXIMUM_SAMPLE_VALUE : Int) : Rat))) ≠ RED_NAN
  have hb := roundHalfAway_bounds RED_MINIMUM_SAMPLE_VALUE RED_MAXIMUM_SAMPLE_VALUE
    (max ((RED_MINIMUM_SAMPLE_VALUE : Int) : Rat)
      (min (q * 10 ^ p) ((RED_MAXIMUM_SAMPLE_VALUE : Int) : Rat)))
    (by unfold RED_MINIMUM_SAMPLE_VALUE; omega)
    (by unfold RED_MAXIMUM_SAMPLE_VALUE; omega)
    (le_max_left _ _) (clamp_le_max p q)
  have hlt : RED_NAN < RED_MINIMUM_SAMPLE_VALUE := by
    unfold RED_NAN RED_MINIMUM_SAMPLE_VALUE
    omega
  omega

theorem writeConversionFactor_eq (p : Nat) :
    writeConversionFactor p = 1 / 10 ^ p := by
  unfold writeConversionFactor
  by_cases h : (10 : Rat) ^ p = 1
  · rw [if_neg (not_not_intro h), h]
    norm_num
  · rw [if_pos h]

theorem dequantizeSample_eq (p : Nat) (s : Int) :
    dequantizeSample p s =
      if s = RED_NAN then none else some ((s : Rat) / 10 ^ p) := by
  unfold dequantizeSample convertSample
  rw [writeConversionFactor_eq]
  have h0 : (1 : Rat) / 10 ^ p ≠ 0 := by positivity
  rw [if_neg h0]
  by_cases h : s = RED_NAN
  · rw [if_pos h, if_pos h]
  · rw [if_neg h, if_neg h, mul_one_div]

theorem dequantize_quantize_none_iff (p : Nat) (x : Option Rat) :
    dequantizeSample p (quantizeSample p x) = none ↔ x = none := by
  cases x with
  | none => simp [quantizeSample, dequantizeSample, convertSample]
  | some q =>
    rw [dequantizeSample_eq, if_neg (quantizeSample_ne_nan p q)]
    simp

theorem dequantize_quantize_some (p : Nat) (q : Rat)
    (h : |q| * 10 ^ p ≤ ((RED_MAXIMUM_SAMPLE_VALUE : Int) : Rat)) :
    ∃ r, dequantizeSample p (quantizeSample p (some q)) = some r ∧
      |r - q| ≤ 1 / 10 ^ p := by
  have h10 : (0 : Rat) < 10 ^ p := by positivity
  have hMM : ((RED_MINIMUM_SAMPLE_VALUE : Int) : Rat) =
      -((RED_MAXIMUM_SAMPLE_VALUE : Int) : Rat) := by
    unfold RED_MINIMUM_SAMPLE_VALUE RED_MAXIMUM_SAMPLE_VALUE
    push_cast
    ring
  have habs1 : q * 10 ^ p ≤ |q| * 10 ^ p :=
    mul_le_mul_of_nonneg_right (le_abs_self q) (le_of_lt h10)
  have habs2 : -(|q| * 10 ^ p) ≤ q * 10 ^ p := by
    have := mul_le_mul_of_nonneg_right (neg_abs_le q) (le_of_lt h10)
    linarith
  have hclamp : max ((RED_MINIMUM_SAMPLE_VALUE : Int) : Rat)
      (min (q * 10 ^ p) ((RED_MAXIMUM_SAMPLE_VALUE : Int) : Rat)) = q * 10 ^ p := by
    rw [min_eq_left (by linarith), max_eq_right (by rw [hMM]; linarith)]
  have hquant : quantizeSample p (some q) = REDCodec.roundHalfAway (q * 10 ^ p) := by
    show REDCodec.roundHalfAway (max ((RED_MINIMUM_SAMPLE_VALUE : Int) : Rat)
      (min (q * 10 ^ p) ((RED_MAXIMUM_SAMPLE_VALUE : Int) : Rat))) =
      REDCodec.roundHalfAway (q * 10 ^ p)
    rw [hclamp]
  have hnan := quantizeSample_ne_nan p q
  rw [hquant] at hnan
  refine ⟨((REDCodec.roundHalfAway (q * 10 ^ p) : Int) : Rat) / 10 ^ p, ?_, ?_⟩
  · rw [hquant, dequantizeSample_eq, if_neg hnan]
  · have hq : q = q * 10 ^ p / 10 ^ p := by
      rw [mul_div_cancel_right₀ q (ne_of_gt h10)]
    calc |((REDCodec.roundHalfAway (q * 10 ^ p) : Int) : Rat) / 10 ^ p - q|
        = |((REDCodec.roundHalfAway (q * 10 ^ p) : Int) : Rat) - q * 10 ^ p| / 10 ^ p := by
          rw [hq]
          rw [div_sub_div_same, ← hq, abs_div, abs_of_pos h10]
      _ ≤ (1 / 2) / 10 ^ p :=
          (div_le_div_right h10).mpr (roundHalfAway_sub_le (q * 10 ^ p))
      _ ≤ 1 / 10 ^ p := (div_le_div_right h10).mpr (by norm_num)

theorem writeData_getD (p : Nat) (xs : List (Option Rat)) (i : Nat)
    (h : i < xs.length) :
    (writeData p xs).getD i 0 = quantizeSample p (xs.getD i (some 0)) := by
  unfold writeData
  rw [List.getD_eq_getElem?_getD, List.getElem?_map, List.getElem?_eq_getElem h,
    List.getD_eq_getElem?_getD, List.getElem?_eq_getElem h]
  rfl

theorem writeData_length (p : Nat) (xs : List (Option Rat)) :
    (writeData p xs).length = xs.length := by
  simp [writeData]

theorem map_convertSample_getD (c : Rat) (ss : List Int) (i : Nat)
    (h : i < ss.length) :
    (ss.map (convertSample c)).getD i (some 0) = convertSample c (ss.getD i 0) := by
  rw [List.getD_eq_getElem?_getD, List.getElem?_map, List.getElem?_eq_getElem h,
    List.getD_eq_getElem?_getD, List.getElem?_eq_getElem h]
  rfl

theorem take_drop_getD (raw : List Int) (m k i : Nat) (h1 : k + i < m)
    (h2 : k + i < raw.length) :
    ((raw.take m).drop k).getD i 0 = raw.getD (k + i) 0 := by
  rw [List.getD_eq_getElem?_getD, List.getElem?_drop, List.getElem?_take,
    if_pos h1, List.getElem?_eq_getElem h2, List.getD_eq_getElem?_getD,
    List.getElem?_eq_getElem h2]

theorem take_drop_length (raw : List Int) (m k : Nat) :
    ((raw.take m).drop k).length = min m raw.length - k := by
  simp [List.length_drop, List.length_take]

theorem get_data_some (info : ReaderChannelInfo) (raw : List Int)
    (t0 t1 : Option Int) (l : List (Option Rat))
    (h : get_data info raw t0 t1 = some l) :
    l = (get_raw_data raw (startSampleOf info (t0.getD info.start_time))
      (endSampleOf info (t1.getD info.end_time))).map
      (convertSample info.units_conversion_factor) := by
  unfold get_data at h
  by_cases hfs : info.sampling_frequency ≤ 0
  · rw [if_pos hfs] at h
    exact absurd h (by simp)
  · rw [if_neg hfs] at h
    exact (Option.some.inj h).symm

theorem intTrunc_of_nonneg (q : Rat) (h : 0 ≤ q) : intTrunc q = ⌊q⌋ := by
  unfold intTrunc
  rw [if_pos h]

theorem intTrunc_zero : intTrunc 0 = 0 := by
  rw [intTrunc_of_nonneg 0 le_rfl, Int.floor_zero]

theorem startSampleOf_self (info : ReaderChannelInfo) :
    startSampleOf info info.start_time = 0 := by
  unfold startSampleOf
  rw [sub_self, Int.cast_zero, zero_mul, zero_div, intTrunc_zero]
  simp

theorem endSampleOf_self (info : ReaderChannelInfo)
    (h : info.end_time = info.start_time) :
    endSampleOf info info.end_time = min 0 info.number_of_samples := by
  unfold endSampleOf
  rw [h, sub_self, Int.cast_zero, zero_mul, zero_div, intTrunc_zero]

/-- C2 (amended): `get_data` windows the raw stream by the requested
time range before the value conversion. For every position the read
actually returns, the claim's statements hold, shifted by the window
start: position `i` of the output is input position `start_sample + i`,
NaN maps to NaN and only NaN to NaN there, and a finite input `x` with
`|x| * 10^p <= RED_MAXIMUM_SAMPLE_VALUE` is recovered within `10^(-p)`
(beyond that bound the writer clamps, see the counterexample). But a
full-range read does not return every sample: the writer's channel
`end_time` is `start_time + trunc((n-1)*1e6/fs)`, and `get_data` treats
`end_sample = trunc((end_time-start_time)*fs/1e6) <= n-1` as exclusive,
so the read returns fewer than `n` samples - at least the final sample
is always dropped. -/
theorem C2_precision :
    (∀ (p : Nat) (xs : List (Option Rat)) (info : ReaderChannelInfo)
        (t0 t1 : Option Int) (l : List (Option Rat)),
      info.units_conversion_factor = writeConversionFactor p →
      get_data info (writeData p xs) t0 t1 = some l →
      ∀ i, i < l.length →
        ((l.getD i (some 0) = none ↔
          xs.getD ((startSampleOf info (t0.getD info.start_time)).toNat + i)
            (some 0) = none) ∧
         ∀ q, xs.getD ((startSampleOf info (t0.getD info.start_time)).toNat + i)
              (some 0) = some q →
           |q| * 10 ^ p ≤ ((RED_MAXIMUM_SAMPLE_VALUE : Int) : Rat) →
           ∃ r, l.getD i (some 0) = some r ∧ |r - q| ≤ 1 / 10 ^ p)) ∧
    (∀ (p : Nat) (xs : List (Option Rat)) (info : ReaderChannelInfo)
        (l : List (Option Rat)),
      xs ≠ [] →
      info.end_time = info.start_time +
        intTrunc (((xs.length - 1 : Nat) : Rat) * 10 ^ 6 /
          info.sampling_frequency) →
      0 < info.sampling_frequency →
      get_data info (writeData p xs) none none = some l →
      l.length < xs.length) := by
  constructor
  · intro p xs info t0 t1 l hconv hget i hi
    have hl := get_data_some info (writeData p xs) t0 t1 l hget
    subst hl
    rw [List.length_map] at hi
    have hib := hi
    unfold get_raw_data at hib
    rw [take_drop_length, writeData_length] at hib
    have hm1 : min ((endSampleOf info (t1.getD info.end_time)).toNat) xs.length ≤
        (endSampleOf info (t1.getD info.end_time)).toNat := min_le_left _ _
    have hm2 : min ((endSampleOf info (t1.getD info.end_time)).toNat) xs.length ≤
        xs.length := min_le_right _ _
    have hb1 : (startSampleOf info (t0.getD info.start_time)).toNat + i <
        (endSampleOf info (t1.getD info.end_time)).toNat := by omega
    have hb3 : (startSampleOf info (t0.getD info.start_time)).toNat + i <
        xs.length := by omega
    have hb2 : (startSampleOf info (t0.getD info.start_time)).toNat + i <
        (writeData p xs).length := by
      rw [writeData_length]
      exact hb3
    constructor
    · rw [map_convertSample_getD _ _ _ hi]
      unfold get_raw_data
      rw [take_drop_getD _ _ _ _ hb1 hb2, writeData_getD _ _ _ hb3, hconv]
      exact dequantize_quantize_none_iff p _
    · intro q hq hbound
      rw [map_convertSample_getD _ _ _ hi]
      unfold get_raw_data
      rw [take_drop_getD _ _ _ _ hb1 hb2, writeData_getD _ _ _ hb3, hq, hconv]
      exact dequantize_quantize_some p q hbound
  · intro p xs info l hxs hend hfs hget
    have hl := get_data_some info (writeData p xs) none none l hget
    subst hl
    rw [List.length_map]
    unfold get_raw_data
    rw [take_drop_length, writeData_length]
    simp only [Option.getD_none]
    have hlen1 : 1 ≤ xs.length := List.length_pos.mpr hxs
    have hq0 : (0 : Rat) ≤ ((xs.length - 1 : Nat) : Rat) * 10 ^ 6 /
        info.sampling_frequency := by positivity
    have hD0 : (0 : Int) ≤ intTrunc (((xs.length - 1 : Nat) : Rat) * 10 ^ 6 /
        info.sampling_frequency) := by
      rw [intTrunc_of_nonneg _ hq0]
      exact Int.floor_nonneg.mpr hq0
    have hDle : ((intTrunc (((xs.length - 1 : Nat) : Rat) * 10 ^ 6 /
        info.sampling_frequency) : Int) : Rat) ≤
        ((xs.length - 1 : Nat) : Rat) * 10 ^ 6 / info.sampling_frequency := by
      rw [intTrunc_of_nonneg _ hq0]
      exact Int.floor_le _
    have hkey : endSampleOf info info.end_time ≤ (xs.length : Int) - 1 := by
      unfold endSampleOf
      refine le_trans (min_le_left _ _) ?_
      rw [hend, add_sub_cancel_left]
      have hqpos : (0 : Rat) ≤ ((intTrunc (((xs.length - 1 : Nat) : Rat) * 10 ^ 6 /
          info.sampling_frequency) : Int) : Rat) * info.sampling_frequency /
          10 ^ 6 := by
        apply div_nonneg _ (by norm_num)
        apply mul_nonneg _ (le_of_lt hfs)
        exact_mod_cast hD0
      have hmul : ((intTrunc (((xs.length - 1 : Nat) : Rat) * 10 ^ 6 /
          info.sampling_frequency) : Int) : Rat) * info.sampling_frequency ≤
          ((xs.length - 1 : Nat) : Rat) * 10 ^ 6 := by
        have h := hDle
        rw [le_div_iff hfs] at h
        exact h
      have hle : ((intTrunc (((xs.length - 1 : Nat) : Rat) * 10 ^ 6 /
          info.sampling_frequency) : Int) : Rat) * info.sampling_frequency /
          10 ^ 6 ≤ (((xs.length : Int) - 1 : Int) : Rat) := by
        have hc : (((xs.length : Int) - 1 : Int) : Rat) =
            ((xs.length - 1 : Nat) : Rat) := by
          rw [Nat.cast_sub hlen1]
          push_cast
          ring
        rw [hc]
        calc ((intTrunc (((xs.length - 1 : Nat) : Rat) * 10 ^ 6 /
              info.sampling_frequency) : Int) : Rat) * info.sampling_frequency /
              10 ^ 6 ≤ ((xs.length - 1 : Nat) : Rat) * 10 ^ 6 / 10 ^ 6 := by
              gcongr
          _ = ((xs.length - 1 : Nat) : Rat) := by
              field_simp
      rw [intTrunc_of_nonneg _ hqpos]
      have hff := Int.floor_le_floor hle
      rw [Int.floor_intCast] at hff
      exact hff
    have h3 : (endSampleOf info info.end_time).toNat ≤ xs.length - 1 := by omega
    have h4 : min ((endSampleOf info info.end_time).toNat) xs.length ≤
        xs.length - 1 := le_trans (min_le_left _ _) h3
    omega

/-- Witness for C2's windowing part: one NaN sample written at 1 MHz;
the writer's channel bounds make the full-range read return nothing. -/
theorem C2_precision_witness :
    ([none] : List (Option Rat)) ≠ [] ∧
    c2ReadInfo.end_time = c2ReadInfo.start_time +
      intTrunc (((([none] : List (Option Rat)).length - 1 : Nat) : Rat) * 10 ^ 6 /
        c2ReadInfo.sampling_frequency) ∧
    (0 : Rat) < c2ReadInfo.sampling_frequency ∧
    get_data c2ReadInfo (writeData 0 [none]) none none = some [] ∧
    ([] : List (Option Rat)).length < ([none] : List (Option Rat)).length := by
  have hend : c2ReadInfo.end_time = c2ReadInfo.start_time +
      intTrunc (((([none] : List (Option Rat)).length - 1 : Nat) : Rat) * 10 ^ 6 /
        c2ReadInfo.sampling_frequency) := by
    show (0 : Int) = 0 + intTrunc (((0 : Nat) : Rat) * 10 ^ 6 /
      c2ReadInfo.sampling_frequency)
    rw [show (((0 : Nat) : Rat) * 10 ^ 6 / c2ReadInfo.sampling_frequency) = 0 from
      by push_cast; ring, intTrunc_zero]
    norm_num
  have hfs : (0 : Rat) < c2ReadInfo.sampling_frequency := by
    show (0 : Rat) < 10 ^ 6
    norm_num
  have hget : get_data c2ReadInfo (writeData 0 [none]) none none = some [] := by
    unfold get_data
    rw [if_neg (show ¬(c2ReadInfo.sampling_frequency ≤ 0) from by
      show ¬((10 ^ 6 : Rat) ≤ 0); norm_num)]
    congr 1
    simp only [Option.getD_none]
    rw [startSampleOf_self, endSampleOf_self c2ReadInfo rfl,
      show min (0 : Int) c2ReadInfo.number_of_samples = 0 from by
        show min (0 : Int) 1 = 0; decide]
    rfl
  exact ⟨by decide, hend, hfs, hget,
    C2_precision.2 0 [none] c2ReadInfo [] (by decide) hend hfs hget⟩

/-- C2 counterexample: at precision 0, the input `10^10` scales past the
si4 sample range, is clamped to `RED_MAXIMUM_SAMPLE_VALUE = 2147483646`,
and a read over a window containing it returns that value with absolute
error about `7.85e9`, far above the claimed `10^0 = 1`. -/
theorem C2_counterexample :
    get_data c2ClampInfo
        (writeData 0 [some ((10 : Rat) ^ 10), some ((10 : Rat) ^ 10)]) none none =
      some [some ((2147483646 : Int) : Rat)] ∧
    1 / (10 : Rat) ^ 0 < |((2147483646 : Int) : Rat) - (10 : Rat) ^ 10| := by
  constructor
  · unfold get_data
    rw [if_neg (show ¬(c2ClampInfo.sampling_frequency ≤ 0) from by
      show ¬((10 ^ 6 : Rat) ≤ 0); norm_num)]
    simp only [Option.getD_none]
    rw [startSampleOf_self]
    have he : endSampleOf c2ClampInfo c2ClampInfo.end_time = 1 := by
      unfold endSampleOf
      rw [show c2ClampInfo.end_time - c2ClampInfo.start_time = (1 : Int) from rfl,
        show ((1 : Int) : Rat) * c2ClampInfo.sampling_frequency / 10 ^ 6 =
          (1 : Rat) from by
          rw [show c2ClampInfo.sampling_frequency = (10 ^ 6 : Rat) from rfl]
          norm_num,
        show intTrunc (1 : Rat) = 1 from by
          unfold intTrunc
          rw [if_pos (by norm_num), Int.floor_one],
        show c2ClampInfo.number_of_samples = (2 : Int) from rfl]
      decide
    rw [he]
    congr 1
    have e1 : min ((10 : Rat) ^ 10 * 10 ^ 0) ((RED_MAXIMUM_SAMPLE_VALUE : Int) : Rat) =
        ((RED_MAXIMUM_SAMPLE_VALUE : Int) : Rat) :=
      min_eq_right (by unfold RED_MAXIMUM_SAMPLE_VALUE; push_cast; norm_num)
    have e2 : max ((RED_MINIMUM_SAMPLE_VALUE : Int) : Rat)
        ((RED_MAXIMUM_SAMPLE_VALUE : Int) : Rat) =
        ((RED_MAXIMUM_SAMPLE_VALUE : Int) : Rat) :=
      max_eq_right (by unfold RED_MINIMUM_SAMPLE_VALUE RED_MAXIMUM_SAMPLE_VALUE
                       push_cast; norm_num)
    have e3 : REDCodec.roundHalfAway ((RED_MAXIMUM_SAMPLE_VALUE : Int) : Rat) =
        RED_MAXIMUM_SAMPLE_VALUE := by
      unfold REDCodec.roundHalfAway
      rw [if_pos (by unfold RED_MAXIMUM_SAMPLE_VALUE; push_cast; norm_num),
        Int.floor_int_add,
        Int.floor_eq_zero_iff.mpr (by norm_num [Set.mem_Ico]), add_zero]
    have hq : quantizeSample 0 (some ((10 : Rat) ^ 10)) = RED_MAXIMUM_SAMPLE_VALUE := by
      show REDCodec.roundHalfAway (max ((RED_MINIMUM_SAMPLE_VALUE : Int) : Rat)
        (min ((10 : Rat) ^ 10 * 10 ^ 0) ((RED_MAXIMUM_SAMPLE_VALUE : Int) : Rat))) = _
      rw [e1, e2, e3]
    rw [show get_raw_data
        (writeData 0 [some ((10 : Rat) ^ 10), some ((10 : Rat) ^ 10)]) 0 1 =
        [quantizeSample 0 (some ((10 : Rat) ^ 10))] from rfl, hq,
      List.map_cons, List.map_nil]
    congr 1
    unfold convertSample
    rw [if_neg (by unfold RED_MAXIMUM_SAMPLE_VALUE RED_NAN; omega),
      show c2ClampInfo.units_conversion_factor = (1 : Rat) from rfl,
      if_neg (show ¬((1 : Rat) = 0) from by norm_num)]
    congr 1
    unfold RED_MAXIMUM_SAMPLE_VALUE
    push_cast
    norm_num
  · rw [show |((2147483646 : Int) : Rat) - (10 : Rat) ^ 10| =
        (10 : Rat) ^ 10 - ((2147483646 : Int) : Rat) from by
      rw [abs_of_neg (by push_cast; norm_num), neg_sub]]
    push_cast
    norm_num

/-! ## C6 and C7: writer segment bookkeeping -/

theorem write_block_current_segment (st : WriterChannelState) (c : List Int)
    (t : Int) (d : Bool) : (write_block st c t d).current_segment = st.current_segment :=
  rfl

theorem write_block_finalized (st : WriterChannelState) (c : List Int)
    (t : Int) (d : Bool) : (write_block st c t d).finalized = st.finalized :=
  rfl

theorem write_block_total_samples (st : WriterChannelState) (c : List Int)
    (t : Int) (d : Bool) : (write_block st c t d).total_samples = st.total_samples :=
  rfl

theorem write_block_last_sample_index (st : WriterChannelState) (c : List Int)
    (t : Int) (d : Bool) :
    (write_block st c t d).last_sample_index = st.last_sample_index + c.length :=
  rfl

theorem write_block_indices (st : WriterChannelState) (c : List Int)
    (t : Int) (d : Bool) :
    (write_block st c t d).indices = st.indices ++
      [{ (REDCodec.compress (some c) t { discontinuity := d }).index with
          file_offset := st.data_file_offset
          start_sample := st.last_sample_index }] :=
  rfl

theorem writeBlocksLoop_preserves (u : Int) (fs : Rat) (need : Bool)
    (chunks : List (List Int)) :
    ∀ (st : WriterChannelState) (w : Nat) (f : Bool),
      (writeBlocksLoop u fs need chunks st w f).current_segment = st.current_segment ∧
      (writeBlocksLoop u fs need chunks st w f).finalized = st.finalized ∧
      (writeBlocksLoop u fs need chunks st w f).total_samples = st.total_samples := by
  induction chunks with
  | nil => intro st w f; exact ⟨rfl, rfl, rfl⟩
  | cons c rest ih =>
    intro st w f
    rw [writeBlocksLoop]
    have h := ih (write_block st c (u + intTrunc ((w : Rat) * 10 ^ 6 / fs)) (f && need))
      (w + c.length) false
    exact ⟨h.1.trans (write_block_current_segment _ _ _ _),
      h.2.1.trans (write_block_finalized _ _ _ _),
      h.2.2.trans (write_block_total_samples _ _ _ _)⟩

theorem chunksOfAux_ne_nil (bl : Nat) (hbl : bl ≠ 0) :
    ∀ (fuel : Nat) (xs : List Int), ∀ c ∈ chunksOfAux bl fuel xs, c ≠ [] := by
  intro fuel
  induction fuel with
  | zero => intro xs c hc; simp [chunksOfAux] at hc
  | succ n ih =>
    intro xs c hc
    cases xs with
    | nil => simp [chunksOfAux] at hc
    | cons x rest =>
      rw [chunksOfAux] at hc
      rcases List.mem_cons.mp hc with h1 | h2
      · subst h1
        intro hceq
        rcases List.take_eq_nil_iff.mp hceq with h | h
        · exact hbl h
        · exact absurd h (List.cons_ne_nil x rest)
      · exact ih _ c h2

theorem sumSamples_nil : sumSamples [] = 0 := rfl

theorem sumSamples_cons (e : TimeSeriesIndex) (l : List TimeSeriesIndex) :
    sumSamples (e :: l) = (e.number_of_samples : Int) + sumSamples l := by
  simp [sumSamples]

theorem sumSamples_append_single (l : List TimeSeriesIndex) (e : TimeSeriesIndex) :
    sumSamples (l ++ [e]) = sumSamples l + (e.number_of_samples : Int) := by
  simp [sumSamples]

theorem indicesCumOk_append (l : List TimeSeriesIndex) (e : TimeSeriesIndex) :
    ∀ b : Int, indicesCumOk b l → e.start_sample = b + sumSamples l →
      indicesCumOk b (l ++ [e]) := by
  induction l with
  | nil =>
    intro b _ he
    rw [sumSamples_nil, add_zero] at he
    exact ⟨he, trivial⟩
  | cons x rest ih =>
    intro b h he
    obtain ⟨h1, h2⟩ := h
    exact ⟨h1, ih (b + (x.number_of_samples : Int)) h2
      (by rw [he, sumSamples_cons]; ring)⟩

theorem write_block_cum (st : WriterChannelState) (c : List Int) (t : Int) (d : Bool)
    (b : Int) (hlen : c.length ≠ 0)
    (h1 : indicesCumOk b st.indices)
    (h2 : st.last_sample_index = b + sumSamples st.indices) :
    indicesCumOk b (write_block st c t d).indices ∧
    (write_block st c t d).last_sample_index =
      b + sumSamples (write_block st c t d).indices := by
  constructor
  · rw [write_block_indices]
    exact indicesCumOk_append _ _ b h1 h2
  · rw [write_block_last_sample_index, write_block_indices, sumSamples_append_single]
    have hnum : ({ (REDCodec.compress (some c) t { discontinuity := d }).index with
        file_offset := st.data_file_offset
        start_sample := st.last_sample_index } : TimeSeriesIndex).number_of_samples =
        c.length := by
      show ((REDCodec.compress (some c) t
        { discontinuity := d }).index).number_of_samples = c.length
      rw [REDCodec.compress_index _ _ _ hlen]
    rw [hnum, h2]
    push_cast
    ring

theorem writeBlocksLoop_cumOk (u : Int) (fs : Rat) (need : Bool)
    (chunks : List (List Int)) :
    (∀ c ∈ chunks, c ≠ []) →
    ∀ (st : WriterChannelState) (w : Nat) (f : Bool) (b : Int),
      indicesCumOk b st.indices →
      st.last_sample_index = b + sumSamples st.indices →
      indicesCumOk b (writeBlocksLoop u fs need chunks st w f).indices ∧
      (writeBlocksLoop u fs need chunks st w f).last_sample_index =
        b + sumSamples (writeBlocksLoop u fs need chunks st w f).indices := by
  induction chunks with
  | nil => intro _ st w f b h1 h2; exact ⟨h1, h2⟩
  | cons c rest ih =>
    intro hne st w f b h1 h2
    have hcne : c.length ≠ 0 :=
      fun h => hne c (List.mem_cons_self c rest) (List.length_eq_zero.mp h)
    rw [writeBlocksLoop]
    have hwb := write_block_cum st c (u + intTrunc ((w : Rat) * 10 ^ 6 / fs))
      (f && need) b hcne h1 h2
    exact ih (fun x hx => hne x (List.mem_cons_of_mem c hx)) _ (w + c.length) false b
      hwb.1 hwb.2

theorem postWriteState_indices (bl : Int) (st : WriterChannelState) (data : List Int)
    (u : Int) (fs : Rat) (ns : Bool) :
    (postWriteState bl st data u fs ns).indices =
      (writeBlocksLoop u fs (needNewSegment bl st u fs ns) (chunksOf bl.toNat data)
        (segmentedState bl st u fs ns) 0 true).indices :=
  rfl

theorem postWriteState_current_segment (bl : Int) (st : WriterChannelState)
    (data : List Int) (u : Int) (fs : Rat) (ns : Bool) :
    (postWriteState bl st data u fs ns).current_segment =
      (writeBlocksLoop u fs (needNewSegment bl st u fs ns) (chunksOf bl.toNat data)
        (segmentedState bl st u fs ns) 0 true).current_segment :=
  rfl

theorem postWriteState_finalized (bl : Int) (st : WriterChannelState)
    (data : List Int) (u : Int) (fs : Rat) (ns : Bool) :
    (postWriteState bl st data u fs ns).finalized =
      (writeBlocksLoop u fs (needNewSegment bl st u fs ns) (chunksOf bl.toNat data)
        (segmentedState bl st u fs ns) 0 true).finalized :=
  rfl

theorem segmentedState_of_need (bl : Int) (st : WriterChannelState) (u : Int)
    (fs : Rat) (ns : Bool) (hn : needNewSegment bl st u fs ns = true) :
    segmentedState bl st u fs ns =
      create_segment (if 0 ≤ st.current_segment then finalize_segment st else st) := by
  unfold segmentedState
  rw [hn, if_pos rfl]

theorem segmentedState_of_not_need (bl : Int) (st : WriterChannelState) (u : Int)
    (fs : Rat) (ns : Bool) (hn : needNewSegment bl st u fs ns = false) :
    segmentedState bl st u fs ns = st := by
  unfold segmentedState
  rw [hn, if_neg (by simp)]

theorem write_raw_data_some (bl : Int) (st : WriterChannelState) (data : List Int)
    (u : Int) (fs : Rat) (ns : Bool) (hdata : data ≠ [])
    (hfs : st.sampling_frequency = 0 ∨ st.sampling_frequency = fs) :
    write_raw_data bl st data u fs ns = some (postWriteState bl st data u fs ns) := by
  unfold write_raw_data
  rw [if_neg hdata, if_neg (not_not_intro hfs)]

/-- C6 (amended): index entry `start_sample`s are cumulative, but the
anchor of each segment is the channel-cumulative sample count at segment
creation (`create_segment` sets `last_sample_index = total_samples`), not
zero: whenever `write_raw_data` opens a new segment, the resulting index
list satisfies the running-sum property anchored at the channel total
before the write. Entry 0 has `start_sample = 0` only in a channel's
first segment. The concrete instance holds: 1000 samples at
`block_len = 100` into a fresh channel give exactly 10 entries with
`start_sample`s 0, 100, ..., 900. -/
theorem C6_start_sample_cumulative :
    (∀ (bl : Int) (st : WriterChannelState) (data : List Int) (u : Int)
        (fs : Rat) (ns : Bool) (st' : WriterChannelState),
      data ≠ [] → bl.toNat ≠ 0 →
      write_raw_data bl st data u fs ns = some st' →
      needNewSegment bl st u fs ns = true →
      indicesCumOk st.total_samples st'.indices) ∧
    (write_raw_data 100 { sampling_frequency := 640 } (List.replicate 1000 7) 0 640
        false).map (fun s => s.indices.map (fun e => e.start_sample)) =
      some [0, 100, 200, 300, 400, 500, 600, 700, 800, 900] := by
  constructor
  · intro bl st data u fs ns st' hdata hbl hw hneed
    unfold write_raw_data at hw
    rw [if_neg hdata] at hw
    by_cases hfs : ¬(st.sampling_frequency = 0 ∨ st.sampling_frequency = fs)
    · rw [if_pos hfs] at hw
      exact absurd hw (by simp)
    · rw [if_neg hfs] at hw
      have hst' : st' = postWriteState bl st data u fs ns := (Option.some.inj hw).symm
      subst hst'
      rw [postWriteState_indices, hneed,
        segmentedState_of_need bl st u fs ns hneed]
      have hchunks : ∀ c ∈ chunksOf bl.toNat data, c ≠ [] :=
        chunksOfAux_ne_nil bl.toNat hbl data.length data
      have hs0i : (create_segment
          (if 0 ≤ st.current_segment then finalize_segment st else st)).indices =
          [] := rfl
      have hs0l : (create_segment
          (if 0 ≤ st.current_segment then finalize_segment st else st)).last_sample_index =
          st.total_samples := by
        show (if 0 ≤ st.current_segment then finalize_segment st else st).total_samples =
          st.total_samples
        by_cases h : 0 ≤ st.current_segment
        · rw [if_pos h]
          rfl
        · rw [if_neg h]
      exact (writeBlocksLoop_cumOk u fs true (chunksOf bl.toNat data) hchunks _ 0 true
        st.total_samples (by rw [hs0i]; trivial)
        (by rw [hs0i, hs0l, sumSamples_nil, add_zero])).1
  · decide

/-- Witness for the general part of C6: one 5-sample write into a fresh
channel opens the first segment and yields a cumulative index list
anchored at the channel total 0. -/
theorem C6_start_sample_cumulative_witness :
    ([5] : List Int) ≠ [] ∧ (100 : Int).toNat ≠ 0 ∧
    needNewSegment 100 { sampling_frequency := 640 } 0 640 false = true ∧
    indicesCumOk ({ sampling_frequency := 640 } : WriterChannelState).total_samples
      (postWriteState 100 { sampling_frequency := 640 } [5] 0 640 false).indices :=
  ⟨by decide, by decide, by decide,
    C6_start_sample_cumulative.1 100 { sampling_frequency := 640 } [5] 0 640 false
      (postWriteState 100 { sampling_frequency := 640 } [5] 0 640 false)
      (by decide) (by decide)
      (write_raw_data_some 100 { sampling_frequency := 640 } [5] 0 640 false
        (by decide) (Or.inr rfl))
      (by decide)⟩

/-- C6 counterexample: after a 100-sample write, a second write with
`new_segment = true` opens segment 1 whose entry 0 has
`start_sample = 100`, not 0 as the claim requires of every segment. -/
theorem C6_counterexample :
    ((write_raw_data 100 { sampling_frequency := 640 } (List.replicate 100 1) 0 640
        false).bind
      (fun s => write_raw_data 100 s (List.replicate 100 1) 1000000 640 true)).map
        (fun s => s.indices.map (fun e => e.start_sample)) = some [100] ∧
    (100 : Int) ≠ 0 := by
  constructor
  · decide
  · decide

/-- C7 (amended): on an existing channel with a live segment and a set
`last_end_time`, `write_raw_data` opens a new segment iff `new_segment`
is true or `|start_uutc - (last_end_time + trunc(1e6/fs))| >
trunc(2 * block_len * 1e6 / fs)` - both the expected-start increment and
the threshold are C-cast to `si8`, i.e. truncated, not rounded - and
opening first finalizes the current segment, flushing its metadata and
index files. -/
theorem C7_segment_decision (bl : Int) (st : WriterChannelState) (data : List Int)
    (u : Int) (fs : Rat) (ns : Bool)
    (hdata : data ≠ []) (hfs : st.sampling_frequency = fs)
    (hseg : 0 ≤ st.current_segment) (hlet : st.last_end_time ≠ UUTC_NO_ENTRY) :
    ∃ st', write_raw_data bl st data u fs ns = some st' ∧
      (st'.current_segment = st.current_segment + 1 ↔
        (ns = true ∨
          |u - (st.last_end_time + intTrunc (10 ^ 6 / fs))| >
            intTrunc (2 * bl * 10 ^ 6 / fs))) ∧
      (st'.current_segment = st.current_segment + 1 →
        st'.finalized = st.finalized ++ [st.indices]) ∧
      (st'.current_segment = st.current_segment → st'.finalized = st.finalized) := by
  have hneed : needNewSegment bl st u fs ns =
      (ns || decide (|u - (st.last_end_time + intTrunc (10 ^ 6 / fs))| >
        intTrunc (2 * bl * 10 ^ 6 / fs))) := by
    unfold needNewSegment
    rw [decide_eq_false (show ¬(st.current_segment < 0) by omega), Bool.or_false]
    cases ns with
    | true => rfl
    | false =>
      rw [Bool.false_or, if_neg (by simp), if_neg hlet]
  have hcond : needNewSegment bl st u fs ns = true ↔
      (ns = true ∨
        |u - (st.last_end_time + intTrunc (10 ^ 6 / fs))| >
          intTrunc (2 * bl * 10 ^ 6 / fs)) := by
    rw [hneed, Bool.or_eq_true, decide_eq_true_eq]
  have hcs : (postWriteState bl st data u fs ns).current_segment =
      (segmentedState bl st u fs ns).current_segment := by
    rw [postWriteState_current_segment]
    exact (writeBlocksLoop_preserves u fs (needNewSegment bl st u fs ns)
      (chunksOf bl.toNat data) (segmentedState bl st u fs ns) 0 true).1
  have hfin : (postWriteState bl st data u fs ns).finalized =
      (segmentedState bl st u fs ns).finalized := by
    rw [postWriteState_finalized]
    exact (writeBlocksLoop_preserves u fs (needNewSegment bl st u fs ns)
      (chunksOf bl.toNat data) (segmentedState bl st u fs ns) 0 true).2.1
  refine ⟨postWriteState bl st data u fs ns,
    write_raw_data_some bl st data u fs ns hdata (Or.inr hfs), ?_, ?_, ?_⟩
  · by_cases hn : needNewSegment bl st u fs ns = true
    · refine iff_of_true ?_ (hcond.mp hn)
      rw [hcs, segmentedState_of_need bl st u fs ns hn, if_pos hseg]
      rfl
    · have hn' : needNewSegment bl st u fs ns = false := Bool.eq_false_iff.mpr hn
      refine iff_of_false ?_ (fun hc => hn (hcond.mpr hc))
      rw [hcs, segmentedState_of_not_need bl st u fs ns hn']
      omega
  · intro hinc
    by_cases hn : needNewSegment bl st u fs ns = true
    · rw [hfin, segmentedState_of_need bl st u fs ns hn, if_pos hseg]
      rfl
    · have hn' : needNewSegment bl st u fs ns = false := Bool.eq_false_iff.mpr hn
      rw [hcs, segmentedState_of_not_need bl st u fs ns hn'] at hinc
      omega
  · intro hsame
    by_cases hn : needNewSegment bl st u fs ns = true
    · rw [hcs, segmentedState_of_need bl st u fs ns hn, if_pos hseg] at hsame
      have : st.current_segment + 1 = st.current_segment := hsame
      omega
    · have hn' : needNewSegment bl st u fs ns = false := Bool.eq_false_iff.mpr hn
      rw [hfin, segmentedState_of_not_need bl st u fs ns hn']

/-- A concrete channel state for exercising the C7 segment decision:
segment 0 open, last end time 0, 640 Hz. -/
def c7State : WriterChannelState :=
  { current_segment := 0, last_end_time := 0, sampling_frequency := 640 }

/-- Witness for C7 at `c7State`: one sample written at
`start_uutc = 314063`. -/
theorem C7_segment_decision_witness :
    ([1] : List Int) ≠ [] ∧
    c7State.sampling_frequency = 640 ∧
    (0 : Int) ≤ c7State.current_segment ∧
    c7State.last_end_time ≠ UUTC_NO_ENTRY ∧
    (∃ st', write_raw_data 100 c7State [1] 314063 640 false = some st' ∧
      (st'.current_segment = c7State.current_segment + 1 ↔
        (false = true ∨
          |(314063 : Int) - (c7State.last_end_time + intTrunc (10 ^ 6 / 640))| >
            intTrunc (2 * 100 * 10 ^ 6 / 640))) ∧
      (st'.current_segment = c7State.current_segment + 1 →
        st'.finalized = c7State.finalized ++ [c7State.indices]) ∧
      (st'.current_segment = c7State.current_segment →
        st'.finalized = c7State.finalized)) :=
  ⟨by decide, rfl, by decide, by decide,
    C7_segment_decision 100 c7State [1] 314063 640 false
      (by decide) rfl (by decide) (by decide)⟩

/-- C7 counterexample: at 640 Hz the expected-start increment `1e6/640 =
1562.5` truncates to 1562 but rounds to 1563. With `last_end_time = 0`,
`block_len = 100` and `start_uutc = 314063` the code sees a gap of
312501 > 312500 and opens a new segment, while the spec's rounded
predicate sees a gap of exactly 312500 and does not. -/
theorem C7_counterexample :
    ¬ specNewSegmentCondition 100 c7State 314063 640 false ∧
    (write_raw_data 100 c7State [1] 314063 640 false).map
      (fun s => s.current_segment) = some 1 := by
  have hneed : needNewSegment 100 c7State 314063 640 false = true := by
    unfold needNewSegment
    rw [if_neg (by decide), if_neg (by decide), decide_eq_true_eq]
    have h1 : intTrunc ((10 : Rat) ^ 6 / 640) = 1562 := by
      unfold intTrunc
      rw [if_pos (by norm_num)]
      apply Int.floor_eq_iff.mpr
      constructor <;> push_cast <;> norm_num
    have h2 : intTrunc (2 * ((100 : Int) : Rat) * 10 ^ 6 / 640) = 312500 := by
      unfold intTrunc
      rw [if_pos (by norm_num)]
      apply Int.floor_eq_iff.mpr
      constructor <;> push_cast <;> norm_num
    rw [h1, h2]
    decide
  constructor
  · unfold specNewSegmentCondition
    push_neg
    refine ⟨by decide, by decide, ?_⟩
    have hr : REDCodec.roundHalfAway ((10 : Rat) ^ 6 / 640) = 1563 := by
      unfold REDCodec.roundHalfAway
      rw [if_pos (by norm_num),
        show ((10 : Rat) ^ 6 / 640 + 1 / 2) = ((1563 : Int) : Rat) by norm_num,
        Int.floor_intCast]
    have hle : c7State.last_end_time = 0 := rfl
    rw [hr, hle,
      show (314063 : Int) - (0 + 1563) = 312500 from by decide,
      show |(312500 : Int)| = 312500 from by decide]
    push_cast
    norm_num
  · rw [write_raw_data_some 100 c7State [1] 314063 640 false (by decide) (Or.inr rfl)]
    show some ((postWriteState 100 c7State [1] 314063 640 false).current_segment) = some 1
    rw [postWriteState_current_segment,
      (writeBlocksLoop_preserves _ _ _ _ _ _ _).1,
      segmentedState_of_need _ _ _ _ _ hneed, if_pos (by decide)]
    decide

/-! ## C5 and C9: CRCs and layout of the segment files -/

theorem drop4_le32 (x : Nat) (t : List Nat) : (le32 x ++ t).drop 4 = t := by
  rw [drop_append_right _ _ _ (by rw [le32_length]), le32_length]
  simp

theorem byteAt_cons_succ (x : Nat) (l : List Nat) (n : Nat) :
    byteAt (x :: l) (n + 1) = byteAt l n := rfl

unseal CRC32.update in
theorem crc_update_nil (c : Nat) : CRC32.update [] c = c := rfl

unseal CRC32.update in
theorem crc_update_cons (b : Nat) (bs : List Nat) (c : Nat) :
    CRC32.update (b :: bs) c = CRC32.update bs (CRC32.updateByte c b) := rfl

unseal CRC32.update in
theorem crc_update_append (a b : List Nat) (c : Nat) :
    CRC32.update (a ++ b) c = CRC32.update b (CRC32.update a c) := by
  unfold CRC32.update
  rw [List.foldl_append]

theorem crc_update_singleton (b c : Nat) :
    CRC32.update [b] c = CRC32.updateByte c b := by
  rw [crc_update_cons, crc_update_nil]

unseal CRC32.calculate in
theorem crc_calculate_eq (bs : List Nat) :
    CRC32.calculate bs = CRC32.update bs CRC32.CRC_START_VALUE := rfl

theorem xor_div_pow (a b k : Nat) : (a ^^^ b) / 2 ^ k = a / 2 ^ k ^^^ b / 2 ^ k := by
  rw [← Nat.shiftRight_eq_div_pow, ← Nat.shiftRight_eq_div_pow,
    ← Nat.shiftRight_eq_div_pow]
  apply Nat.eq_of_testBit_eq
  intro i
  simp [Nat.testBit_shiftRight, Nat.testBit_xor]

theorem xor_mod_pow (a b k : Nat) : (a ^^^ b) % 2 ^ k = a % 2 ^ k ^^^ b % 2 ^ k := by
  apply Nat.eq_of_testBit_eq
  intro i
  simp [Nat.testBit_mod_two_pow, Nat.testBit_xor, Bool.and_xor_distrib_left]

unseal CRC32.tableEntry CRC32.crcStep in
theorem tableEntryHigh_eq :
    (List.range 256).map (fun i => CRC32.tableEntry i / 2 ^ 24) =
      [0, 150, 251, 109, 32, 182, 219, 77, 65, 215, 186, 44, 97, 247, 154,
      12, 131, 21, 120, 238, 163, 53, 88, 206, 194, 84, 57, 175, 226, 116,
      25, 143, 209, 71, 42, 188, 241, 103, 10, 156, 144, 6, 107, 253, 176,
      38, 75, 221, 82, 196, 169, 63, 114, 228, 137, 31, 19, 133, 232, 126,
      51, 165, 200, 94, 117, 227, 142, 24, 85, 195, 174, 56, 52, 162, 207,
      89, 20, 130, 239, 121, 246, 96, 13, 155, 214, 64, 45, 187, 183, 33,
      76, 218, 151, 1, 108, 250, 164, 50, 95, 201, 132, 18, 127, 233, 229,
      115, 30, 136, 197, 83, 62, 168, 39, 177, 220, 74, 7, 145, 252, 106,
      102, 240, 157, 11, 70, 208, 189, 43, 235, 125, 16, 134, 203, 93, 48,
      166, 170, 60, 81, 199, 138, 28, 113, 231, 104, 254, 147, 5, 72, 222,
      179, 37, 41, 191, 210, 68, 9, 159, 242, 100, 58, 172, 193, 87, 26,
      140, 225, 119, 123, 237, 128, 22, 91, 205, 160, 54, 185, 47, 66, 212,
      153, 15, 98, 244, 248, 110, 3, 149, 216, 78, 35, 181, 158, 8, 101,
      243, 190, 40, 69, 211, 223, 73, 36, 178, 255, 105, 4, 146, 29, 139,
      230, 112, 61, 171, 198, 80, 92, 202, 167, 49, 124, 234, 135, 17, 79,
      217, 180, 34, 111, 249, 148, 2, 14, 152, 245, 99, 46, 184, 213, 67,
      204, 90, 55, 161, 236, 122, 23, 129, 141, 27, 118, 224, 173, 59, 86,
      192] := by
  decide

theorem tableEntry_high_inj (i j : Nat) (hi : i < 256) (hj : j < 256)
    (h : CRC32.tableEntry i / 2 ^ 24 = CRC32.tableEntry j / 2 ^ 24) : i = j := by
  have hnd : ((List.range 256).map (fun k => CRC32.tableEntry k / 2 ^ 24)).Nodup := by
    rw [tableEntryHigh_eq]
    decide
  have hp := List.pairwise_iff_getElem.mp hnd
  have hlen : ((List.range 256).map (fun k => CRC32.tableEntry k / 2 ^ 24)).length =
      256 := by simp
  by_contra hne
  rcases Nat.lt_or_ge i j with hlt | hge
  · have hcontra := hp i j (by omega) (by omega) hlt
    rw [List.getElem_map, List.getElem_map, List.getElem_range,
      List.getElem_range] at hcontra
    exact hcontra h
  · have hlt2 : j < i := by omega
    have hcontra := hp j i (by omega) (by omega) hlt2
    rw [List.getElem_map, List.getElem_map, List.getElem_range,
      List.getElem_range] at hcontra
    exact hcontra h.symm

unseal CRC32.updateByte in
theorem updateByte_inj (b c1 c2 : Nat) (h1 : c1 < 2 ^ 32) (h2 : c2 < 2 ^ 32)
    (he : CRC32.updateByte c1 b = CRC32.updateByte c2 b) : c1 = c2 := by
  unfold CRC32.updateByte at he
  have hx1lt : (c1 ^^^ b) % 256 < 256 := Nat.mod_lt _ (by norm_num)
  have hx2lt : (c2 ^^^ b) % 256 < 256 := Nat.mod_lt _ (by norm_num)
  have hhigh : CRC32.tableEntry ((c1 ^^^ b) % 256) / 2 ^ 24 =
      CRC32.tableEntry ((c2 ^^^ b) % 256) / 2 ^ 24 := by
    have hcongr := congrArg (fun z => z / 2 ^ 24) he
    simp only at hcongr
    rw [xor_div_pow, xor_div_pow] at hcongr
    have hz1 : c1 / 256 / 2 ^ 24 = 0 := by
      rw [Nat.div_div_eq_div_mul]
      exact Nat.div_eq_of_lt (by omega)
    have hz2 : c2 / 256 / 2 ^ 24 = 0 := by
      rw [Nat.div_div_eq_div_mul]
      exact Nat.div_eq_of_lt (by omega)
    rwa [hz1, hz2, Nat.xor_zero, Nat.xor_zero] at hcongr
  have hx12 : (c1 ^^^ b) % 256 = (c2 ^^^ b) % 256 :=
    tableEntry_high_inj _ _ hx1lt hx2lt hhigh
  have hte : CRC32.tableEntry ((c1 ^^^ b) % 256) =
      CRC32.tableEntry ((c2 ^^^ b) % 256) := by rw [hx12]
  rw [hte] at he
  have hdiv : c1 / 256 = c2 / 256 := by
    have hcongr := congrArg (fun z => CRC32.tableEntry ((c2 ^^^ b) % 256) ^^^ z) he
    simpa [← Nat.xor_assoc, Nat.xor_self, Nat.zero_xor] using hcongr
  have hmod : c1 % 256 = c2 % 256 := by
    rw [show (256 : Nat) = 2 ^ 8 from by norm_num] at hx12 ⊢
    rw [xor_mod_pow, xor_mod_pow] at hx12
    have hcongr := congrArg (fun z => z ^^^ b % 2 ^ 8) hx12
    simpa [Nat.xor_assoc, Nat.xor_self, Nat.xor_zero] using hcongr
  omega

theorem crc_update_inj (bs : List Nat) : ∀ c1 c2 : Nat, c1 < 2 ^ 32 → c2 < 2 ^ 32 →
    CRC32.update bs c1 = CRC32.update bs c2 → c1 = c2 := by
  induction bs with
  | nil =>
    intro c1 c2 _ _ h
    rwa [crc_update_nil, crc_update_nil] at h
  | cons b bs ih =>
    intro c1 c2 h1 h2 he
    rw [crc_update_cons, crc_update_cons] at he
    exact updateByte_inj b c1 c2 h1 h2
      (ih _ _ (updateByte_lt _ _ h1) (updateByte_lt _ _ h2) he)

/-- C5 (amended): of the CRC fields across the three segment files, the
writer computes exactly two. The `.tdat` universal header's `header_CRC`
does cover bytes [4..1024) of that header, and the `.tidx` `body_CRC`
does cover the rest of that file (the serialized index records). But the
`.tmet` file's `header_CRC` and `body_CRC`, the `.tidx` `header_CRC`,
and the `.tdat` `body_CRC` are never computed and remain
`CRC_NO_ENTRY = 0`. -/
theorem C5_file_crcs :
    (∀ ch ses seg uuid,
      (tdatUH ch ses seg uuid).header_CRC =
        CRC32.calculate ((uhBytes (tdatUH ch ses seg uuid)).drop 4)) ∧
    (∀ ch ses seg uuid t0 t1 ne me idx,
      (tidxUH ch ses seg uuid t0 t1 ne me idx).body_CRC =
        CRC32.calculate ((tidxFileBytes ch ses seg uuid t0 t1 ne me idx).drop
          (uhBytes (tidxUH ch ses seg uuid t0 t1 ne me idx)).length)) ∧
    (∀ ch ses seg uuid t0 t1,
      (tmetUH ch ses seg uuid t0 t1).header_CRC = CRC_NO_ENTRY ∧
      (tmetUH ch ses seg uuid t0 t1).body_CRC = CRC_NO_ENTRY) ∧
    (∀ ch ses seg uuid t0 t1 ne me idx,
      (tidxUH ch ses seg uuid t0 t1 ne me idx).header_CRC = CRC_NO_ENTRY) ∧
    (∀ ch ses seg uuid, (tdatUH ch ses seg uuid).body_CRC = CRC_NO_ENTRY) := by
  refine ⟨?_, ?_, ?_, ?_, ?_⟩
  · intro ch ses seg uuid
    rw [show uhBytes (tdatUH ch ses seg uuid) =
      le32 ((tdatUH ch ses seg uuid).header_CRC) ++ uhTail (tdatUH ch ses seg uuid)
      from rfl, drop4_le32]
    rfl
  · intro ch ses seg uuid t0 t1 ne me idx
    unfold tidxFileBytes
    rw [List.drop_left]
    rfl
  · intro ch ses seg uuid t0 t1
    exact ⟨rfl, rfl⟩
  · intro ch ses seg uuid t0 t1 ne me idx
    rfl
  · intro ch ses seg uuid
    rfl

unseal CRC32.update CRC32.updateByte CRC32.tableEntry CRC32.crcStep in
/-- C5 counterexample: two `.tmet` files written for channels named `b`
and `c` both store `header_CRC = CRC_NO_ENTRY = 0`, yet their header
bytes [4..1024) differ only at byte 52 (the first channel-name byte), so
their CRCs differ - one byte-level `updateByte` step from the common
48-byte prefix CRC already diverges, and the CRC update is injective in
its accumulator. Hence at least one of the two files stores a
`header_CRC` different from the CRC of its bytes [4..1024). -/
theorem C5_counterexample :
    (tmetUH [98] [115] 0 (List.replicate 16 0) UUTC_NO_ENTRY
      UUTC_NO_ENTRY).header_CRC = CRC_NO_ENTRY ∧
    (tmetUH [99] [115] 0 (List.replicate 16 0) UUTC_NO_ENTRY
      UUTC_NO_ENTRY).header_CRC = CRC_NO_ENTRY ∧
    (CRC_NO_ENTRY ≠ CRC32.calculate ((uhBytes (tmetUH [98] [115] 0
        (List.replicate 16 0) UUTC_NO_ENTRY UUTC_NO_ENTRY)).drop 4) ∨
     CRC_NO_ENTRY ≠ CRC32.calculate ((uhBytes (tmetUH [99] [115] 0
        (List.replicate 16 0) UUTC_NO_ENTRY UUTC_NO_ENTRY)).drop 4)) := by
  refine ⟨rfl, rfl, ?_⟩
  have hsplit1 : (uhBytes (tmetUH [98] [115] 0 (List.replicate 16 0) UUTC_NO_ENTRY
      UUTC_NO_ENTRY)).drop 4 =
      [0, 0, 0, 0, 116, 109, 101, 116, 0, 3, 0, 1, 0, 0, 0, 0, 0, 0, 0, 128, 0, 0, 0, 0, 0, 0, 0, 128, 1, 0, 0, 0] ++
      ([0, 0, 0, 0, 255, 255, 255, 255, 255, 255, 255, 255, 0, 0, 0, 0] ++
      ([98] ++ (uhBytes (tmetUH [98] [115] 0 (List.replicate 16 0) UUTC_NO_ENTRY
        UUTC_NO_ENTRY)).drop 53)) := by
    decide
  have hsplit2 : (uhBytes (tmetUH [99] [115] 0 (List.replicate 16 0) UUTC_NO_ENTRY
      UUTC_NO_ENTRY)).drop 4 =
      [0, 0, 0, 0, 116, 109, 101, 116, 0, 3, 0, 1, 0, 0, 0, 0, 0, 0, 0, 128, 0, 0, 0, 0, 0, 0, 0, 128, 1, 0, 0, 0] ++
      ([0, 0, 0, 0, 255, 255, 255, 255, 255, 255, 255, 255, 0, 0, 0, 0] ++
      ([99] ++ (uhBytes (tmetUH [98] [115] 0 (List.replicate 16 0) UUTC_NO_ENTRY
        UUTC_NO_ENTRY)).drop 53)) := by
    decide
  have e32 : CRC32.update [0, 0, 0, 0, 116, 109, 101, 116, 0, 3, 0, 1, 0, 0, 0, 0, 0, 0, 0, 128, 0, 0, 0, 0, 0, 0, 0, 128, 1, 0, 0, 0] CRC32.CRC_START_VALUE = 2149584500 := by
    decide
  have e16 : CRC32.update [0, 0, 0, 0, 255, 255, 255, 255, 255, 255, 255, 255, 0, 0, 0, 0] 2149584500 = 1820694049 := by
    decide
  have eb1 : CRC32.updateByte 1820694049 98 = 405378178 := by decide
  have eb2 : CRC32.updateByte 1820694049 99 = 2394705992 := by decide
  have k1 : CRC32.calculate ((uhBytes (tmetUH [98] [115] 0 (List.replicate 16 0)
      UUTC_NO_ENTRY UUTC_NO_ENTRY)).drop 4) =
      CRC32.update ((uhBytes (tmetUH [98] [115] 0 (List.replicate 16 0)
        UUTC_NO_ENTRY UUTC_NO_ENTRY)).drop 53) 405378178 := by
    rw [crc_calculate_eq, hsplit1, crc_update_append, e32, crc_update_append, e16,
      crc_update_append, crc_update_singleton, eb1]
  have k2 : CRC32.calculate ((uhBytes (tmetUH [99] [115] 0 (List.replicate 16 0)
      UUTC_NO_ENTRY UUTC_NO_ENTRY)).drop 4) =
      CRC32.update ((uhBytes (tmetUH [98] [115] 0 (List.replicate 16 0)
        UUTC_NO_ENTRY UUTC_NO_ENTRY)).drop 53) 2394705992 := by
    rw [crc_calculate_eq, hsplit2, crc_update_append, e32, crc_update_append, e16,
      crc_update_append, crc_update_singleton, eb2]
  by_contra h
  push_neg at h
  obtain ⟨h1, h2⟩ := h
  rw [k1] at h1
  rw [k2] at h2
  have heq := crc_update_inj _ 405378178 2394705992 (by norm_num) (by norm_num)
    (h1.symm.trans h2)
  norm_num at heq

/-- C9 (what the code does): every `.tmet` file is exactly 16384 bytes,
but the two bytes at offsets 1024 and 1025 - where the claim expects the
Section 1 encryption levels 1 and 2 - are `PAD_BYTE_VALUE = 0x7E`:
`write_metadata` constructs a `MetadataSection1` and never writes it,
padding [1024..2560) instead. -/
theorem C9_tmet_section1 (uh : UniversalHeader) (meta2 meta3 : List Nat)
    (hlen : (uhBytes uh).length = UNIVERSAL_HEADER_BYTES)
    (hm2 : meta2.length = 10752) (hm3 : meta3.length = 3072) :
    (tmetFileBytes uh meta2 meta3).length = METADATA_FILE_BYTES ∧
    byteAt (tmetFileBytes uh meta2 meta3) UNIVERSAL_HEADER_BYTES = PAD_BYTE_VALUE ∧
    byteAt (tmetFileBytes uh meta2 meta3) (UNIVERSAL_HEADER_BYTES + 1) =
      PAD_BYTE_VALUE ∧ PAD_BYTE_VALUE ≠ 1 := by
  unfold tmetFileBytes
  refine ⟨?_, ?_, ?_, by decide⟩
  · simp only [List.length_append, List.length_replicate, hm2, hm3, hlen]
    unfold METADATA_FILE_BYTES METADATA_SECTION_2_OFFSET METADATA_SECTION_3_OFFSET
      UNIVERSAL_HEADER_BYTES
    omega
  · simp only [List.append_assoc]
    rw [byteAt_append_right _ _ _ (le_of_eq hlen), hlen, Nat.sub_self,
      show METADATA_SECTION_2_OFFSET - UNIVERSAL_HEADER_BYTES = 1535 + 1 from rfl,
      List.replicate_succ, List.cons_append, byteAt_cons_zero]
  · simp only [List.append_assoc]
    rw [byteAt_append_right _ _ _ (by rw [hlen]; omega), hlen,
      show UNIVERSAL_HEADER_BYTES + 1 - UNIVERSAL_HEADER_BYTES = 0 + 1 from rfl,
      show METADATA_SECTION_2_OFFSET - UNIVERSAL_HEADER_BYTES = 1535 + 1 from rfl,
      List.replicate_succ, List.cons_append, byteAt_cons_succ,
      show (1535 : Nat) = 1534 + 1 from rfl,
      List.replicate_succ, List.cons_append, byteAt_cons_zero]

theorem name256_length (s : List Nat) : (name256 s).length = 256 := by
  unfold name256
  rw [List.length_append, List.length_replicate]
  have := List.length_take 255 s
  omega

theorem fileTypeBytes_length (s : List Nat) : (fileTypeBytes s).length = 5 := by
  unfold fileTypeBytes
  rw [List.length_append, List.length_replicate]
  have := List.length_take 4 s
  omega

theorem tmetUH_uhBytes_length (ch ses : List Nat) (seg : Int) (uuid : List Nat)
    (t0 t1 : Int) (huuid : uuid.length = 16) :
    (uhBytes (tmetUH ch ses seg uuid t0 t1)).length = UNIVERSAL_HEADER_BYTES := by
  unfold uhBytes uhTail tmetUH
  simp only [List.length_append, le32_length, le64_length, List.length_cons,
    List.length_nil, List.length_replicate, name256_length, fileTypeBytes_length,
    huuid]
  rfl

/-- Witness for C9 at a concrete `.tmet` file: channel `c`, session `s`,
segment 0, zero UUID, no index entries, default section contents. -/
theorem C9_tmet_section1_witness :
    (uhBytes (tmetUH [99] [115] 0 (List.replicate 16 0) UUTC_NO_ENTRY
      UUTC_NO_ENTRY)).length = UNIVERSAL_HEADER_BYTES ∧
    (List.replicate 10752 0 : List Nat).length = 10752 ∧
    (List.replicate 3072 0 : List Nat).length = 3072 ∧
    ((tmetFileBytes (tmetUH [99] [115] 0 (List.replicate 16 0) UUTC_NO_ENTRY
        UUTC_NO_ENTRY) (List.replicate 10752 0) (List.replicate 3072 0)).length =
      METADATA_FILE_BYTES ∧
    byteAt (tmetFileBytes (tmetUH [99] [115] 0 (List.replicate 16 0) UUTC_NO_ENTRY
        UUTC_NO_ENTRY) (List.replicate 10752 0) (List.replicate 3072 0))
      UNIVERSAL_HEADER_BYTES = PAD_BYTE_VALUE ∧
    byteAt (tmetFileBytes (tmetUH [99] [115] 0 (List.replicate 16 0) UUTC_NO_ENTRY
        UUTC_NO_ENTRY) (List.replicate 10752 0) (List.replicate 3072 0))
      (UNIVERSAL_HEADER_BYTES + 1) = PAD_BYTE_VALUE ∧ PAD_BYTE_VALUE ≠ 1) :=
  ⟨tmetUH_uhBytes_length [99] [115] 0 (List.replicate 16 0) UUTC_NO_ENTRY
      UUTC_NO_ENTRY (List.length_replicate 16 0),
   List.length_replicate 10752 0, List.length_replicate 3072 0,
    C9_tmet_section1 (tmetUH [99] [115] 0 (List.replicate 16 0) UUTC_NO_ENTRY
        UUTC_NO_ENTRY) (List.replicate 10752 0) (List.replicate 3072 0)
      (tmetUH_uhBytes_length [99] [115] 0 (List.replicate 16 0) UUTC_NO_ENTRY
        UUTC_NO_ENTRY (List.length_replicate 16 0))
      (List.length_replicate 10752 0) (List.length_replicate 3072 0)⟩

end BrainmazeMefd